import Mathlib

/-!
Verification of the prompt-orchestration core of the `webgen` repository
(`src/backend/ai_service.py`).  Python strings are modelled as `List Char`;
the Python string operations used by the source (`in`, `split`, `replace`,
`strip`, `find`, `rfind`) are reimplemented below with the same semantics
at the call sites that occur in the source (all of which use non-empty
separators/patterns).  Model-gateway exchanges are modelled by `Except Unit
String` parameters: `.ok r` is the provider's raw text response, `.error ()`
is a raised `GatewayError`.  Any other Python exception is modelled as
`.error ()` of an `Except Unit` computation at the point where the source
could raise.
-/

namespace Webgen

/-- Python strings are modelled as lists of characters. -/
abbrev Str := List Char

/-- Boolean test that `p` is a prefix of `s` (charwise). -/
def hasPre : Str → Str → Bool
  | [], _ => true
  | _ :: _, [] => false
  | c :: p, d :: s => c = d && hasPre p s

/-- Boolean test that `p` is a suffix of `s`. -/
def hasSuf (p s : Str) : Bool := hasPre p.reverse s.reverse

/-- Python `pat in s` (substring containment). -/
def containsSub : Str → Str → Bool
  | [], pat => hasPre pat []
  | c :: r, pat => hasPre pat (c :: r) || containsSub r pat

/-- Number of (possibly overlapping) start positions at which `pat` occurs in `s`. -/
def countOcc : Str → Str → Nat
  | [], pat => if hasPre pat [] then 1 else 0
  | c :: r, pat => (if hasPre pat (c :: r) then 1 else 0) + countOcc r pat

/-- Index of the first occurrence of `pat` in `s` (Python `str.find`). -/
def firstOcc : Str → Str → Option Nat
  | [], pat => if hasPre pat [] then some 0 else none
  | c :: r, pat =>
    if hasPre pat (c :: r) then some 0 else (firstOcc r pat).map (· + 1)

/-- Index of the last occurrence of `pat` in `s` (Python `str.rfind`). -/
def lastOcc : Str → Str → Option Nat
  | [], pat => if hasPre pat [] then some 0 else none
  | c :: r, pat =>
    match lastOcc r pat with
    | some i => some (i + 1)
    | none => if hasPre pat (c :: r) then some 0 else none

/-- Split `s` at the first occurrence of `sep`, returning the parts before and after. -/
def splitFirst : Str → Str → Option (Str × Str)
  | [], sep => if hasPre sep [] then some ([], []) else none
  | c :: r, sep =>
    if hasPre sep (c :: r) then some ([], (c :: r).drop sep.length)
    else (splitFirst r sep).map (fun pq => (c :: pq.1, pq.2))

/-- Fueled worker for Python `str.split` with a non-empty separator. -/
def pySplitF : Nat → Str → Str → List Str
  | 0, s, _ => [s]
  | f + 1, s, sep =>
    if sep.isEmpty then [s]
    else
      match splitFirst s sep with
      | none => [s]
      | some (p, q) => p :: pySplitF f q sep

/-- Python `s.split(sep)` for a non-empty `sep` (the only case the source uses;
Python raises on an empty separator, which never happens in the source). -/
def pySplit (s sep : Str) : List Str := pySplitF (s.length + 1) s sep

/-- Fueled worker for Python `str.replace`. -/
def replaceAllF : Nat → Str → Str → Str → Str
  | 0, s, _, _ => s
  | f + 1, s, pat, repl =>
    if pat.isEmpty then s
    else if hasPre pat s then repl ++ replaceAllF f (s.drop pat.length) pat repl
    else
      match s with
      | [] => []
      | c :: r => c :: replaceAllF f r pat repl

/-- Python `s.replace(pat, repl)` for a non-empty `pat` (the only case the
source uses): replaces all non-overlapping occurrences, left to right. -/
def replaceAll (s pat repl : Str) : Str := replaceAllF (s.length + 1) s pat repl

/-- ASCII whitespace stripped by Python `str.strip()` (the source only ever
strips model output around code fences, where ASCII whitespace is what occurs). -/
def isPySpace (c : Char) : Bool :=
  c = ' ' || c = '\t' || c = '\n' || c = '\r' || c = Char.ofNat 11 || c = Char.ofNat 12

/-- Python `s.strip()`. -/
def pyStrip (s : Str) : Str :=
  ((s.dropWhile isPySpace).reverse.dropWhile isPySpace).reverse

/-- The character U+007B (opening curly brace). -/
def lbrace : Char := Char.ofNat 123

/-- The character U+007D (closing curly brace). -/
def rbrace : Char := Char.ofNat 125

/-- Python value as produced by `json.loads`.  JSON numbers are kept as their
source lexeme (the claims under verification never inspect numeric values, so
float semantics is not needed); `obj` keeps members in parse order, with
duplicate keys resolved to the last occurrence at lookup time, as a Python
dict built by the json decoder would. -/
inductive PyVal where
  | str : Str → PyVal
  | num : Str → PyVal
  | bool : Bool → PyVal
  | null : PyVal
  | list : List PyVal → PyVal
  | obj : List (Str × PyVal) → PyVal

/-- JSON whitespace as accepted by Python's json decoder. -/
def jsonWsChar (c : Char) : Bool := c = ' ' || c = '\t' || c = '\n' || c = '\r'

def skipWs (s : Str) : Str := s.dropWhile jsonWsChar

def hexVal (c : Char) : Option Nat :=
  if '0' ≤ c && c ≤ '9' then some (c.toNat - 48)
  else if 'a' ≤ c && c ≤ 'f' then some (c.toNat - 87)
  else if 'A' ≤ c && c ≤ 'F' then some (c.toNat - 55)
  else none

def hex4 : Str → Option (Nat × Str)
  | a :: b :: c :: d :: r => do
    let va ← hexVal a
    let vb ← hexVal b
    let vc ← hexVal c
    let vd ← hexVal d
    pure (((va * 16 + vb) * 16 + vc) * 16 + vd, r)
  | _ => none

def consStr (c : Char) (o : Option (Str × Str)) : Option (Str × Str) :=
  o.map (fun pr => (c :: pr.1, pr.2))

/-- Body of a JSON string literal, after the opening quote, in strict mode:
escape sequences are decoded, unescaped control characters are rejected.
Surrogate pairs are combined; a lone surrogate (which Python would keep as a
surrogate code unit, impossible in a Lean `Char`) degrades to `Char.ofNat`'s
default — irrelevant to every claim below. -/
def parseStringBody : Nat → Str → Option (Str × Str)
  | 0, _ => none
  | f + 1, s =>
    match s with
    | [] => none
    | c :: r =>
      if c = '"' then some ([], r)
      else if c = '\\' then
        match r with
        | [] => none
        | e :: r2 =>
          if e = '"' then consStr '"' (parseStringBody f r2)
          else if e = '\\' then consStr '\\' (parseStringBody f r2)
          else if e = '/' then consStr '/' (parseStringBody f r2)
          else if e = 'b' then consStr (Char.ofNat 8) (parseStringBody f r2)
          else if e = 'f' then consStr (Char.ofNat 12) (parseStringBody f r2)
          else if e = 'n' then consStr '\n' (parseStringBody f r2)
          else if e = 'r' then consStr '\r' (parseStringBody f r2)
          else if e = 't' then consStr '\t' (parseStringBody f r2)
          else if e = 'u' then
            match hex4 r2 with
            | none => none
            | some (code, r3) =>
              if 55296 ≤ code && code < 56320 then
                match r3 with
                | u1 :: u2 :: r4 =>
                  if u1 = '\\' && u2 = 'u' then
                    match hex4 r4 with
                    | some (code2, r5) =>
                      if 56320 ≤ code2 && code2 < 57344 then
                        consStr (Char.ofNat (65536 + (code - 55296) * 1024 + (code2 - 56320)))
                          (parseStringBody f r5)
                      else consStr (Char.ofNat code) (parseStringBody f r3)
                    | none => consStr (Char.ofNat code) (parseStringBody f r3)
                  else consStr (Char.ofNat code) (parseStringBody f r3)
                | _ => consStr (Char.ofNat code) (parseStringBody f r3)
              else consStr (Char.ofNat code) (parseStringBody f r3)
          else none
      else if c.toNat < 32 then none
      else consStr c (parseStringBody f r)

def isDigit9 (c : Char) : Bool := '1' ≤ c && c ≤ '9'

def isDigit0 (c : Char) : Bool := '0' ≤ c && c ≤ '9'

/-- Integer part of a JSON number: `0` or a nonzero digit followed by digits
(leading zeros rejected, as in Python's json number regex). -/
def parseIntPart : Str → Option (Str × Str)
  | [] => none
  | c :: r =>
    if c = '0' then some (['0'], r)
    else if isDigit9 c then some (c :: r.takeWhile isDigit0, r.dropWhile isDigit0)
    else none

/-- Optional fraction part `.digits` of a JSON number. -/
def parseFracPart : Str → Option (Str × Str)
  | [] => some ([], [])
  | c :: r =>
    if c = '.' then
      let ds := r.takeWhile isDigit0
      if ds.isEmpty then none else some ('.' :: ds, r.dropWhile isDigit0)
    else some ([], c :: r)

/-- Optional exponent part `[eE][+-]?digits` of a JSON number. -/
def parseExpPart : Str → Option (Str × Str)
  | [] => some ([], [])
  | c :: r =>
    if c = 'e' || c = 'E' then
      match r with
      | [] => none
      | d :: r2 =>
        if d = '+' || d = '-' then
          let ds := r2.takeWhile isDigit0
          if ds.isEmpty then none else some (c :: d :: ds, r2.dropWhile isDigit0)
        else
          let ds := r.takeWhile isDigit0
          if ds.isEmpty then none else some (c :: ds, r.dropWhile isDigit0)
    else some ([], c :: r)

/-- A JSON number, returned as its lexeme. -/
def parseNumber (s : Str) : Option (Str × Str) :=
  match s with
  | c :: r =>
    if c = '-' then do
      let (ip, r1) ← parseIntPart r
      let (fp, r2) ← parseFracPart r1
      let (ep, r3) ← parseExpPart r2
      pure ('-' :: (ip ++ fp ++ ep), r3)
    else do
      let (ip, r1) ← parseIntPart s
      let (fp, r2) ← parseFracPart r1
      let (ep, r3) ← parseExpPart r2
      pure (ip ++ fp ++ ep, r3)
  | [] => none

mutual

/-- One JSON value (with Python's json extensions `NaN`, `Infinity`,
`-Infinity`), consuming leading whitespace, returning the remaining input. -/
def parseValue : Nat → Str → Option (PyVal × Str)
  | 0, _ => none
  | f + 1, s0 =>
    let s := skipWs s0
    match s with
    | [] => none
    | c :: r =>
      if c = '"' then (parseStringBody (r.length + 1) r).map (fun pr => (PyVal.str pr.1, pr.2))
      else if c = lbrace then
        match skipWs r with
        | [] => none
        | d :: r2 => if d = rbrace then some (PyVal.obj [], r2) else parseMembers f (skipWs r) []
      else if c = '[' then
        match skipWs r with
        | [] => none
        | d :: r2 => if d = ']' then some (PyVal.list [], r2) else parseElems f (skipWs r) []
      else if hasPre ("true").toList s then some (PyVal.bool true, s.drop 4)
      else if hasPre ("false").toList s then some (PyVal.bool false, s.drop 5)
      else if hasPre ("null").toList s then some (PyVal.null, s.drop 4)
      else if hasPre ("NaN").toList s then some (PyVal.num ("NaN").toList, s.drop 3)
      else if hasPre ("Infinity").toList s then some (PyVal.num ("Infinity").toList, s.drop 8)
      else if hasPre ("-Infinity").toList s then some (PyVal.num ("-Infinity").toList, s.drop 9)
      else (parseNumber s).map (fun pr => (PyVal.num pr.1, pr.2))

/-- Members of a JSON object, after the opening brace (input not starting
with the closing brace): `"key" : value (, "key" : value)*` then the brace. -/
def parseMembers : Nat → Str → List (Str × PyVal) → Option (PyVal × Str)
  | 0, _, _ => none
  | f + 1, s, acc =>
    match s with
    | [] => none
    | c :: r =>
      if c = '"' then
        match parseStringBody (r.length + 1) r with
        | none => none
        | some (key, r1) =>
          match skipWs r1 with
          | ':' :: r2 =>
            match parseValue f r2 with
            | none => none
            | some (v, r3) =>
              match skipWs r3 with
              | ',' :: r5 => parseMembers f (skipWs r5) (acc ++ [(key, v)])
              | d :: r5 => if d = rbrace then some (PyVal.obj (acc ++ [(key, v)]), r5) else none
              | [] => none
          | _ => none
      else none

/-- Elements of a JSON array, after the opening bracket (input not starting
with the closing bracket). -/
def parseElems : Nat → Str → List PyVal → Option (PyVal × Str)
  | 0, _, _ => none
  | f + 1, s, acc =>
    match parseValue f s with
    | none => none
    | some (v, r) =>
      match skipWs r with
      | ',' :: r2 => parseElems f r2 (acc ++ [v])
      | ']' :: r2 => some (PyVal.list (acc ++ [v]), r2)
      | _ => none

end

/-- Python `json.loads`: one JSON document, with nothing but whitespace after
it; any irregularity raises (modelled as `none`). -/
def jsonLoads (s : Str) : Option PyVal :=
  match parseValue (2 * s.length + 8) s with
  | some (v, rest) => if skipWs rest = [] then some v else none
  | none => none

/-- Python `v == "s"` for a json-decoded value against a string literal:
true exactly when `v` is that string. -/
def pyStrEq (v : PyVal) (s : Str) : Bool :=
  match v with
  | .str t => t = s
  | _ => false

/-- Lookup in a decoded JSON object: last duplicate key wins, as in a Python
dict built by successive insertion. -/
def assocLast (kvs : List (Str × PyVal)) (key : Str) : Option PyVal :=
  match kvs with
  | [] => none
  | (k, v) :: r =>
    match assocLast r key with
    | some w => some w
    | none => if k = key then some v else none

/-- Python `analysis.get(key, dflt)`: raises `AttributeError` (modelled as
`.error ()`) when `analysis` is not a dict. -/
def pyGet (v : PyVal) (key : Str) (dflt : PyVal) : Except Unit PyVal :=
  match v with
  | .obj kvs => .ok ((assocLast kvs key).getD dflt)
  | _ => .error ()

/-- Total variant of `pyGet` for use in statements about dict-valued analyses. -/
def pyGetD (v : PyVal) (key : Str) (dflt : PyVal) : PyVal :=
  match v with
  | .obj kvs => (assocLast kvs key).getD dflt
  | _ => dflt

/-- HTML of the hand-authored video-platform fallback template (source lines 509-551). -/
def vpHtml : Str := ("<!DOCTYPE html>\n<html lang=\"en\">\n<head>\n    <meta charset=\"UTF-8\">\n    <meta name=\"viewport\" content=\"width=device-width, initial-scale=1.0\">\n    <title>Video Platform</title>\n    <link rel=\"stylesheet\" href=\"styles.css\">\n</head>\n<body>\n    <header class=\"header\">\n        <div class=\"header-left\">\n            <button class=\"menu-btn\">☰</button>\n            <div class=\"logo\">📺 VideoTube</div>\n        </div>\n        <div class=\"header-center\">\n            <input type=\"text\" class=\"search-bar\" placeholder=\"Search\">\n            <button class=\"search-btn\">🔍</button>\n        </div>\n        <div class=\"header-right\">\n            <button>🔔</button>\n            <button>👤</button>\n        </div>\n    </header>\n    \n    <aside class=\"sidebar\">\n        <nav>\n            <a href=\"#\" class=\"nav-item active\">🏠 Home</a>\n            <a href=\"#\" class=\"nav-item\">📺 Subscriptions</a>\n            <a href=\"#\" class=\"nav-item\">📚 Library</a>\n            <a href=\"#\" class=\"nav-item\">🕐 History</a>\n            <a href=\"#\" class=\"nav-item\">👍 Liked Videos</a>\n        </nav>\n    </aside>\n    \n    <main class=\"main-content\">\n        <div class=\"video-grid\" id=\"videoGrid\">\n            <!-- Videos will be generated by JavaScript -->\n        </div>\n    </main>\n    \n    <script src=\"app.js\"></script>\n</body>\n</html>").toList

/-- CSS of the video-platform fallback template (source lines 553-777). -/
def vpCss : Str := ("@import url(\x27https://fonts.googleapis.com/css2?family=Roboto:wght@400;500;700&display=swap\x27);\n\n* \x7b margin: 0; padding: 0; box-sizing: border-box; \x7d\n\nbody \x7b\n    font-family: \x27Roboto\x27, sans-serif;\n    background: #0f0f0f;\n    color: #f1f1f1;\n\x7d\n\n.header \x7b\n    position: fixed;\n    top: 0;\n    left: 0;\n    right: 0;\n    height: 56px;\n    background: #0f0f0f;\n    border-bottom: 1px solid #303030;\n    display: flex;\n    align-items: center;\n    justify-content: space-between;\n    padding: 0 16px;\n    z-index: 100;\n\x7d\n\n.header-left, .header-right \x7b\n    display: flex;\n    align-items: center;\n    gap: 16px;\n\x7d\n\n.menu-btn \x7b\n    background: none;\n    border: none;\n    color: #fff;\n    font-size: 20px;\n    cursor: pointer;\n    padding: 8px;\n\x7d\n\n.logo \x7b\n    font-size: 20px;\n    font-weight: 700;\n\x7d\n\n.header-center \x7b\n    flex: 1;\n    max-width: 600px;\n    display: flex;\n    gap: 8px;\n    margin: 0 40px;\n\x7d\n\n.search-bar \x7b\n    flex: 1;\n    background: #121212;\n    border: 1px solid #303030;\n    border-radius: 40px;\n    padding: 10px 16px;\n    color: #f1f1f1;\n    font-size: 16px;\n\x7d\n\n.search-bar:focus \x7b\n    outline: none;\n    border-color: #1e90ff;\n\x7d\n\n.search-btn \x7b\n    background: #222;\n    border: 1px solid #303030;\n    border-radius: 40px;\n    padding: 10px 20px;\n    color: #fff;\n    cursor: pointer;\n\x7d\n\n.header-right button \x7b\n    background: none;\n    border: none;\n    color: #fff;\n    font-size: 20px;\n    cursor: pointer;\n    padding: 8px;\n\x7d\n\n.sidebar \x7b\n    position: fixed;\n    left: 0;\n    top: 56px;\n    width: 240px;\n    height: calc(100vh - 56px);\n    background: #0f0f0f;\n    overflow-y: auto;\n    padding: 12px 0;\n    border-right: 1px solid #303030;\n\x7d\n\n.sidebar::-webkit-scrollbar \x7b width: 8px; \x7d\n.sidebar::-webkit-scrollbar-thumb \x7b background: #303030; border-radius: 4px; \x7d\n\n.nav-item \x7b\n    display: flex;\n    align-items: center;\n    padding: 10px 24px;\n    color: #f1f1f1;\n    text-decoration: none;\n    transition: background 0.2s;\n    gap: 24px;\n\x7d\n\n.nav-item:hover \x7b\n    background: #272727;\n\x7d\n\n.nav-item.active \x7b\n    background: #272727;\n    font-weight: 500;\n\x7d\n\n.main-content \x7b\n    margin-left: 240px;\n    margin-top: 56px;\n    padding: 24px;\n    min-height: calc(100vh - 56px);\n\x7d\n\n.video-grid \x7b\n    display: grid;\n    grid-template-columns: repeat(auto-fill, minmax(320px, 1fr));\n    gap: 40px 16px;\n\x7d\n\n.video-card \x7b\n    cursor: pointer;\n\x7d\n\n.video-thumbnail \x7b\n    position: relative;\n    width: 100%;\n    aspect-ratio: 16/9;\n    background: linear-gradient(135deg, #667eea 0%, #764ba2 100%);\n    border-radius: 12px;\n    overflow: hidden;\n    display: flex;\n    align-items: center;\n    justify-content: center;\n    font-size: 48px;\n\x7d\n\n.video-thumbnail:hover \x7b\n    transform: scale(1.02);\n    transition: transform 0.2s;\n\x7d\n\n.duration \x7b\n    position: absolute;\n    bottom: 8px;\n    right: 8px;\n    background: rgba(0,0,0,0.8);\n    padding: 3px 6px;\n    border-radius: 4px;\n    font-size: 12px;\n    font-weight: 500;\n\x7d\n\n.video-info \x7b\n    display: flex;\n    gap: 12px;\n    padding-top: 12px;\n\x7d\n\n.channel-avatar \x7b\n    width: 36px;\n    height: 36px;\n    border-radius: 50%;\n    background: linear-gradient(135deg, #f093fb 0%, #f5576c 100%);\n    flex-shrink: 0;\n\x7d\n\n.video-details h3 \x7b\n    font-size: 14px;\n    font-weight: 500;\n    line-height: 1.4;\n    margin-bottom: 4px;\n    color: #f1f1f1;\n    display: -webkit-box;\n    -webkit-line-clamp: 2;\n    -webkit-box-orient: vertical;\n    overflow: hidden;\n\x7d\n\n.video-meta \x7b\n    font-size: 12px;\n    color: #aaa;\n    line-height: 1.4;\n\x7d\n\n.channel-name \x7b\n    color: #aaa;\n\x7d\n\n.channel-name:hover \x7b\n    color: #fff;\n\x7d\n\n@media (max-width: 1024px) \x7b\n    .video-grid \x7b\n        grid-template-columns: repeat(auto-fill, minmax(280px, 1fr));\n    \x7d\n\x7d\n\n@media (max-width: 768px) \x7b\n    .sidebar \x7b\n        transform: translateX(-100%);\n    \x7d\n    \n    .main-content \x7b\n        margin-left: 0;\n    \x7d\n    \n    .video-grid \x7b\n        grid-template-columns: 1fr;\n    \x7d\n\x7d").toList

/-- JavaScript of the video-platform fallback template (source lines 779-861). -/
def vpJs : Str := ("// Video Platform JavaScript\nconst videoData = [\n    \x7b title: \x27Amazing Tutorial: Learn Web Development\x27, channel: \x27CodeMaster\x27, views: \x271.2M\x27, time: \x272 days ago\x27, duration: \x2715:30\x27 \x7d,\n    \x7b title: \x27Top 10 JavaScript Tips and Tricks\x27, channel: \x27DevGuru\x27, views: \x27856K\x27, time: \x271 week ago\x27, duration: \x2712:45\x27 \x7d,\n    \x7b title: \x27Build a Full Stack App from Scratch\x27, channel: \x27TechLead\x27, views: \x272.1M\x27, time: \x273 days ago\x27, duration: \x2745:20\x27 \x7d,\n    \x7b title: \x27CSS Grid vs Flexbox: Complete Guide\x27, channel: \x27DesignPro\x27, views: \x27543K\x27, time: \x275 days ago\x27, duration: \x2718:15\x27 \x7d,\n    \x7b title: \x27React Hooks Explained Simply\x27, channel: \x27CodeMaster\x27, views: \x271.8M\x27, time: \x271 week ago\x27, duration: \x2722:10\x27 \x7d,\n    \x7b title: \x27Python for Beginners 2024\x27, channel: \x27PythonAcademy\x27, views: \x273.2M\x27, time: \x272 weeks ago\x27, duration: \x271:05:30\x27 \x7d,\n    \x7b title: \x27Database Design Best Practices\x27, channel: \x27DataEngineer\x27, views: \x27678K\x27, time: \x274 days ago\x27, duration: \x2728:45\x27 \x7d,\n    \x7b title: \x27API Development with FastAPI\x27, channel: \x27BackendPro\x27, views: \x27945K\x27, time: \x271 week ago\x27, duration: \x2735:20\x27 \x7d,\n    \x7b title: \x27Modern UI/UX Design Principles\x27, channel: \x27DesignPro\x27, views: \x271.4M\x27, time: \x273 days ago\x27, duration: \x2720:15\x27 \x7d,\n    \x7b title: \x27Docker & Kubernetes Tutorial\x27, channel: \x27DevOpsGuru\x27, views: \x271.1M\x27, time: \x275 days ago\x27, duration: \x2742:30\x27 \x7d,\n    \x7b title: \x27Machine Learning Basics\x27, channel: \x27AIAcademy\x27, views: \x272.5M\x27, time: \x271 week ago\x27, duration: \x2752:10\x27 \x7d,\n    \x7b title: \x27Git and GitHub for Teams\x27, channel: \x27TechLead\x27, views: \x27789K\x27, time: \x272 days ago\x27, duration: \x2725:40\x27 \x7d\n];\n\nconst emojis = [\x27🎬\x27, \x27🎮\x27, \x27🎨\x27, \x27🎯\x27, \x27🎪\x27, \x27🎭\x27, \x27🎰\x27, \x27🎲\x27, \x27🎵\x27, \x27🎸\x27, \x27🎹\x27, \x27🎺\x27];\n\nfunction createVideoCard(video, index) \x7b\n    return `\n        <div class=\"video-card\">\n            <div class=\"video-thumbnail\">\n                $\x7bemojis[index % emojis.length]\x7d\n                <span class=\"duration\">$\x7bvideo.duration\x7d</span>\n            </div>\n            <div class=\"video-info\">\n                <div class=\"channel-avatar\"></div>\n                <div class=\"video-details\">\n                    <h3>$\x7bvideo.title\x7d</h3>\n                    <div class=\"video-meta\">\n                        <div class=\"channel-name\">$\x7bvideo.channel\x7d</div>\n                        <div>$\x7bvideo.views\x7d views • $\x7bvideo.time\x7d</div>\n                    </div>\n                </div>\n            </div>\n        </div>\n    `;\n\x7d\n\nfunction renderVideos() \x7b\n    const grid = document.getElementById(\x27videoGrid\x27);\n    grid.innerHTML = videoData.map((video, index) => createVideoCard(video, index)).join(\x27\x27);\n    \n    // Add click handlers\n    document.querySelectorAll(\x27.video-card\x27).forEach((card, index) => \x7b\n        card.addEventListener(\x27click\x27, () => \x7b\n            console.log(\x27Playing video:\x27, videoData[index].title);\n            alert(`Now playing: $\x7bvideoData[index].title\x7d`);\n        \x7d);\n    \x7d);\n\x7d\n\n// Initialize\ndocument.addEventListener(\x27DOMContentLoaded\x27, () => \x7b\n    renderVideos();\n    \n    // Search functionality\n    const searchBar = document.querySelector(\x27.search-bar\x27);\n    const searchBtn = document.querySelector(\x27.search-btn\x27);\n    \n    function handleSearch() \x7b\n        const query = searchBar.value.toLowerCase();\n        if (query) \x7b\n            console.log(\x27Searching for:\x27, query);\n            alert(`Searching for: $\x7bquery\x7d`);\n        \x7d\n    \x7d\n    \n    searchBtn.addEventListener(\x27click\x27, handleSearch);\n    searchBar.addEventListener(\x27keypress\x27, (e) => \x7b\n        if (e.key === \x27Enter\x27) handleSearch();\n    \x7d);\n    \n    // Sidebar toggle for mobile\n    const menuBtn = document.querySelector(\x27.menu-btn\x27);\n    const sidebar = document.querySelector(\x27.sidebar\x27);\n    \n    menuBtn.addEventListener(\x27click\x27, () => \x7b\n        sidebar.style.transform = sidebar.style.transform === \x27translateX(0px)\x27 \n            ? \x27translateX(-100%)\x27 \n            : \x27translateX(0px)\x27;\n    \x7d);\n\x7d);").toList

/-- CSS enhancement block prepended for app_type "video_platform" (source lines 383-476). -/
def vpEnhancement : Str := ("/* Video Platform Styles */\n@import url(\x27https://fonts.googleapis.com/css2?family=Roboto:wght@300;400;500;700&display=swap\x27);\n\n:root \x7b\n    --yt-black: #0f0f0f;\n    --yt-dark: #212121;\n    --yt-white: #ffffff;\n    --yt-text: #f1f1f1;\n    --yt-border: #303030;\n\x7d\n\n* \x7b margin: 0; padding: 0; box-sizing: border-box; \x7d\n\nbody \x7b\n    font-family: \x27Roboto\x27, sans-serif;\n    background: var(--yt-black);\n    color: var(--yt-text);\n\x7d\n\n.header \x7b\n    display: flex;\n    justify-content: space-between;\n    align-items: center;\n    padding: 12px 16px;\n    background: var(--yt-black);\n    border-bottom: 1px solid var(--yt-border);\n\x7d\n\n.sidebar \x7b\n    position: fixed;\n    left: 0;\n    top: 56px;\n    width: 240px;\n    height: calc(100vh - 56px);\n    background: var(--yt-black);\n    overflow-y: auto;\n    padding: 12px 0;\n\x7d\n\n.main-content \x7b\n    margin-left: 240px;\n    margin-top: 56px;\n    padding: 24px;\n\x7d\n\n.video-grid \x7b\n    display: grid;\n    grid-template-columns: repeat(auto-fill, minmax(320px, 1fr));\n    gap: 24px;\n\x7d\n\n.video-card \x7b\n    cursor: pointer;\n\x7d\n\n.video-thumbnail \x7b\n    width: 100%;\n    aspect-ratio: 16/9;\n    background: var(--yt-dark);\n    border-radius: 12px;\n    position: relative;\n    overflow: hidden;\n\x7d\n\n.video-thumbnail img \x7b\n    width: 100%;\n    height: 100%;\n    object-fit: cover;\n\x7d\n\n.video-info \x7b\n    display: flex;\n    gap: 12px;\n    padding-top: 12px;\n\x7d\n\n.channel-avatar \x7b\n    width: 36px;\n    height: 36px;\n    border-radius: 50%;\n    background: var(--yt-dark);\n\x7d\n\n.video-details h3 \x7b\n    font-size: 14px;\n    font-weight: 500;\n    line-height: 1.4;\n    margin-bottom: 4px;\n\x7d\n\n.video-meta \x7b\n    font-size: 12px;\n    color: #aaa;\n\x7d").toList

/-- CSS enhancement block prepended for every other app_type (source lines 478-494). -/
def genericEnhancement : Str := ("@import url(\x27https://fonts.googleapis.com/css2?family=Inter:wght@300;400;500;600;700&display=swap\x27);\n\n:root \x7b\n    --primary: #6366f1;\n    --background: #0f172a;\n    --surface: #1e293b;\n    --text: #f1f5f9;\n\x7d\n\n* \x7b margin: 0; padding: 0; box-sizing: border-box; \x7d\n\nbody \x7b\n    font-family: \x27Inter\x27, sans-serif;\n    background: var(--background);\n    color: var(--text);\n    line-height: 1.6;\n\x7d").toList

/-- Opening of a code fence. -/
def bt3 : Str := ("```").toList

def doctypeTag : Str := ("<!DOCTYPE").toList

def htmlOpenTag : Str := ("<html").toList

def htmlCloseTag : Str := ("</html>").toList

def headCloseTag : Str := ("</head>").toList

def bodyCloseTag : Str := ("</body>").toList

def linkTag : Str := ("<link").toList

def scriptTag : Str := ("<script").toList

/-- Replacement inserted for `</head>` when the stylesheet link is missing
(source line 306). -/
def headReplStr : Str := ("    <link rel=\"stylesheet\" href=\"styles.css\">\n</head>").toList

/-- Replacement inserted for `</body>` when the script tag is missing
(source line 309). -/
def bodyReplStr : Str := ("    <script src=\"app.js\"></script>\n</body>").toList

/-- `_get_model_config` (source lines 14-22): dict lookup with the fixed
default `("openai", "gpt-5")` for unknown identifiers. -/
def _get_model_config (model : Str) : Str × Str :=
  if model = ("claude-sonnet-4").toList then
    (("anthropic").toList, ("claude-4-sonnet-20250514").toList)
  else if model = ("gpt-5").toList then (("openai").toList, ("gpt-5").toList)
  else if model = ("gpt-5-mini").toList then (("openai").toList, ("gpt-5-mini").toList)
  else if model = ("gemini-2.5-pro").toList then (("gemini").toList, ("gemini-2.5-pro").toList)
  else (("openai").toList, ("gpt-5").toList)

/-- `_extract_code_block` (source lines 932-941): split on the raw marker
"```" + language, take the chunk after the first occurrence, cut it at the
next fence, strip; `None` when the marker is absent.  The `parts[1]` access
is guarded by the containment test, hence the total `getD`. -/
def _extract_code_block (text language : Str) : Option Str :=
  let marker := bt3 ++ language
  if containsSub text marker then
    let parts := pySplit text marker
    if 1 < parts.length then some (pyStrip ((pySplit (parts.getD 1 []) bt3).headD []))
    else none
  else none

/-- `_extract_html_direct` (source lines 943-954): first `<!DOCTYPE`,
falling back to first `<html`, through the last `</html>` inclusive
(`text[start:end + 7].strip()`); empty string when either marker is missing. -/
def _extract_html_direct (text : Str) : Str :=
  let start? :=
    match firstOcc text doctypeTag with
    | some i => some i
    | none => firstOcc text htmlOpenTag
  match start? with
  | none => []
  | some start =>
    match lastOcc text htmlCloseTag with
    | none => []
    | some e => pyStrip ((text.drop start).take (e + 7 - start))

/-- Python `x or y` for an optional string `x`: `y` when `x` is `None` or
empty. -/
def pyOrS (a : Option Str) (b : Str) : Str :=
  match a with
  | some s => if s = [] then b else s
  | none => b

/-- Html extraction of `_generate_contextual_frontend` (source lines 296,
301-302): the fenced "html" block (empty when missing), then the
direct-document fallback guarded by `"<!DOCTYPE" in response`. -/
def extractedHtml (r : Str) : Str :=
  let html := pyOrS (_extract_code_block r ("html").toList) []
  if html = [] && containsSub r doctypeTag then _extract_html_direct r else html

/-- Css extraction of `_generate_contextual_frontend` (source line 297). -/
def extractedCss (r : Str) : Str := pyOrS (_extract_code_block r ("css").toList) []

/-- Js extraction of `_generate_contextual_frontend` (source line 298):
`_extract_code_block(response, "javascript") or _extract_code_block(response, "js") or ""`. -/
def extractedJs (r : Str) : Str :=
  pyOrS (_extract_code_block r ("javascript").toList)
    (pyOrS (_extract_code_block r ("js").toList) [])

/-- Structural repair of `_generate_contextual_frontend` (source lines
305-309): insert the stylesheet link before `</head>` when no `<link` is
present, then the script tag before `</body>` when no `<script` is present;
both via Python `str.replace`, which replaces every occurrence. -/
def repairHtml (html : Str) : Str :=
  let h1 :=
    if !html.isEmpty && !containsSub html linkTag && containsSub html headCloseTag then
      replaceAll html headCloseTag headReplStr
    else html
  if !h1.isEmpty && !containsSub h1 scriptTag && containsSub h1 bodyCloseTag then
    replaceAll h1 bodyCloseTag bodyReplStr
  else h1

/-- The three artifacts returned by the Frontend Generator. -/
structure FrontendResult where
  html : Str
  css : Str
  js : Str
deriving DecidableEq

/-- `_create_video_platform_fallback` (source lines 507-863): a fixed
artifact triple; the prompt parameter is unused by the source body. -/
def _create_video_platform_fallback (_prompt : Str) : FrontendResult :=
  { html := vpHtml, css := vpCss, js := vpJs }

/-- `_create_generic_fallback` (source lines 865-868): three empty strings. -/
def _create_generic_fallback (_prompt : Str) : FrontendResult :=
  { html := [], css := [], js := [] }

/-- `_generate_fallback_frontend` (source lines 498-505): template keyed by
`analysis.get('app_type', 'landing_page')`. -/
def _generate_fallback_frontend (prompt : Str) (analysis : PyVal) :
    Except Unit FrontendResult := do
  let a ← pyGet analysis ("app_type").toList (.str ("landing_page").toList)
  if pyStrEq a ("video_platform").toList then pure (_create_video_platform_fallback prompt)
  else pure (_create_generic_fallback prompt)

/-- `_enhance_css_for_app_type` (source lines 378-496): prepend the
enhancement block selected by `analysis.get('app_type', 'landing_page')`,
joined with a blank line. -/
def _enhance_css_for_app_type (css : Str) (analysis : PyVal) : Except Unit Str := do
  let a ← pyGet analysis ("app_type").toList (.str ("landing_page").toList)
  if pyStrEq a ("video_platform").toList then
    pure (vpEnhancement ++ ("\n\n").toList ++ css)
  else pure (genericEnhancement ++ ("\n\n").toList ++ css)

/-- `_get_reference_examples` (source lines 324-355) only contributes text to
the model prompt; its only pipeline-observable effect is the `TypeError`
Python raises when `examples.get(reference_site, ...)` is given an
unhashable (list/dict) key. -/
def _get_reference_examples_chk (v : PyVal) : Except Unit Unit :=
  match v with
  | .list _ => .error ()
  | .obj _ => .error ()
  | _ => .ok ()

/-- `_get_component_templates` (source lines 357-376): `"video_grid" in
components` raises `TypeError` when `components` is not a container. -/
def _get_component_templates_chk (v : PyVal) : Except Unit Unit :=
  match v with
  | .num _ => .error ()
  | .bool _ => .error ()
  | .null => .error ()
  | _ => .ok ()

/-- `analysis.get('app_type', 'website').upper()` (source line 243) raises
`AttributeError` unless the value is a string. -/
def appTypeUpperChk (v : PyVal) : Except Unit Unit :=
  match v with
  | .str _ => .ok ()
  | _ => .error ()

def isStrVal : PyVal → Bool
  | .str _ => true
  | _ => false

/-- `', '.join(analysis.get('key_components', []))` (source line 249) raises
`TypeError` unless the value is an iterable of strings (a json list of
strings, a string, or a dict, whose decoded keys are strings). -/
def joinComponentsChk (v : PyVal) : Except Unit Unit :=
  match v with
  | .list xs => if xs.all isStrVal then .ok () else .error ()
  | .num _ => .error ()
  | .bool _ => .error ()
  | .null => .error ()
  | _ => .ok ()

/-- Prompt-construction phase of `_generate_contextual_frontend` (source
lines 210-291).  The text it builds only feeds the gateway — which the model
takes as a parameter — so the model records exactly the exceptions this
phase can raise, in source evaluation order. -/
def buildPromptChecks (analysis : PyVal) : Except Unit Unit := do
  let rs ← pyGet analysis ("reference_site").toList (.str ("custom").toList)
  _get_reference_examples_chk rs
  let kc ← pyGet analysis ("key_components").toList (.list [])
  _get_component_templates_chk kc
  let at1 ← pyGet analysis ("app_type").toList (.str ("website").toList)
  appTypeUpperChk at1
  let kc2 ← pyGet analysis ("key_components").toList (.list [])
  joinComponentsChk kc2

/-- Post-gateway phase of `_generate_contextual_frontend` (source lines
295-322): extraction, structural repair, quality gates, fallback and css
enhancement. -/
def processResponse (prompt : Str) (analysis : PyVal) (r : Str) :
    Except Unit FrontendResult :=
  let html := repairHtml (extractedHtml r)
  let css := extractedCss r
  let js := extractedJs r
  if html.length < 500 then _generate_fallback_frontend prompt analysis
  else if css.length < 300 then do
    let css2 ← _enhance_css_for_app_type css analysis
    pure { html := html, css := css2, js := js }
  else pure { html := html, css := css, js := js }

/-- `_generate_contextual_frontend` (source lines 207-322), with the gateway
response as a parameter (`.error ()` models a raised `GatewayError`). -/
def _generate_contextual_frontend (prompt : Str) (analysis : PyVal)
    (resp : Except Unit Str) : Except Unit FrontendResult :=
  (buildPromptChecks analysis).bind fun _ =>
    resp.bind fun r => processResponse prompt analysis r

def jsonFence : Str := ("```json").toList

/-- Json payload extraction of `_analyze_user_intent` (source lines 186-192):
prefer the chunk after "```json", else after any "```", else whole text. -/
def extractJsonStr (response : Str) : Str :=
  if containsSub response jsonFence then
    pyStrip ((pySplit ((pySplit response jsonFence).getD 1 []) bt3).headD [])
  else if containsSub response bt3 then
    pyStrip ((pySplit ((pySplit response bt3).getD 1 []) bt3).headD [])
  else response

/-- The fixed fallback analysis of `_analyze_user_intent` (source lines
198-205). -/
def defaultIntent : PyVal :=
  PyVal.obj
    [ (("app_type").toList, .str ("landing_page").toList)
    , (("reference_site").toList, .str ("custom").toList)
    , (("key_components").toList,
        .list [.str ("header").toList, .str ("hero").toList,
               .str ("features").toList, .str ("footer").toList])
    , (("visual_style").toList, .str ("modern").toList)
    , (("layout_pattern").toList, .str ("hero_sections").toList)
    , (("primary_features").toList, .list [.str ("responsive_design").toList]) ]

/-- Parsing phase of `_analyze_user_intent` (source lines 185-205): the
`try` block returns whatever `json.loads` produces — with no key check —
and any exception inside it yields the fixed fallback analysis. -/
def _analyze_user_intent_parse (response : Str) : PyVal :=
  match jsonLoads (extractJsonStr response) with
  | some v => v
  | none => defaultIntent

/-- `_analyze_user_intent` (source lines 151-205) with the gateway response
as a parameter: a `GatewayError` in the exchange propagates (it is raised
outside the `try`), otherwise the response is parsed. -/
def _analyze_user_intent (resp : Except Unit Str) : Except Unit PyVal :=
  resp.map _analyze_user_intent_parse

/-- The backend artifacts. -/
structure BackendResult where
  python : Str
  requirements : Str
  models : Str
deriving DecidableEq

/-- Fixed pinned dependency list used when no "txt" fence is found
(source line 905). -/
def defaultRequirements : Str :=
  ("fastapi==0.104.1\nuvicorn==0.24.0\nmotor==3.3.2\npydantic==2.5.0\npython-dotenv==1.0.0").toList

/-- `_generate_backend` (source lines 870-907) with the gateway response as
a parameter. -/
def _generate_backend (resp : Except Unit Str) : Except Unit BackendResult :=
  resp.map fun r =>
    { python := pyOrS (_extract_code_block r ("python").toList) []
    , requirements := pyOrS (_extract_code_block r ("txt").toList) defaultRequirements
    , models := [] }

/-- `_generate_readme` (source lines 909-911): a pure template, no gateway
call. -/
def _generate_readme (prompt : Str) : Str :=
  ("# Generated Project\n\n").toList ++ prompt
    ++ ("\n\n## Features\n- Modern UI\n- Responsive design\n- Working functionality").toList

/-- Output of `json.dumps(\x7b"name": "generated-app", "version": "1.0.0"\x7d,
indent=2)` (source line 914). -/
def packageJsonStr : Str :=
  ("\x7b\n  \"name\": \"generated-app\",\n  \"version\": \"1.0.0\"\n\x7d").toList

def _generate_package_json (_prompt : Str) : Str := packageJsonStr

/-- One row of the emitted file manifest. -/
structure ProjectFile where
  filename : Str
  content : Str
  file_type : Str
  description : Str

/-- The top-level result dict of `generate_complete_project`. -/
structure ProjectResult where
  html_content : Str
  css_content : Str
  js_content : Str
  python_backend : Str
  requirements_txt : Str
  package_json : Str
  readme : Str
  structure' : PyVal
  files : List ProjectFile

/-- File-manifest assembly of `generate_complete_project` (source lines
75-131): append each artifact only when non-empty; the package manifest is
always appended. -/
def buildFiles (fr : FrontendResult) (br : BackendResult) (readme package_json : Str) :
    List ProjectFile :=
  (if !fr.html.isEmpty then
    [{ filename := ("index.html").toList, content := fr.html, file_type := ("html").toList,
       description := ("Main HTML file with structure and content").toList }] else [])
  ++ (if !fr.css.isEmpty then
    [{ filename := ("styles.css").toList, content := fr.css, file_type := ("css").toList,
       description := ("Stylesheet with modern, responsive design").toList }] else [])
  ++ (if !fr.js.isEmpty then
    [{ filename := ("app.js").toList, content := fr.js, file_type := ("js").toList,
       description := ("JavaScript for interactivity and API calls").toList }] else [])
  ++ (if !br.python.isEmpty then
    [{ filename := ("server.py").toList, content := br.python, file_type := ("python").toList,
       description := ("FastAPI backend with routes and business logic").toList }] else [])
  ++ (if !br.requirements.isEmpty then
    [{ filename := ("requirements.txt").toList, content := br.requirements,
       file_type := ("txt").toList, description := ("Python dependencies").toList }] else [])
  ++ (if !readme.isEmpty then
    [{ filename := ("README.md").toList, content := readme, file_type := ("md").toList,
       description := ("Project documentation").toList }] else [])
  ++ [{ filename := ("package.json").toList, content := package_json,
        file_type := ("json").toList,
        description := ("Frontend dependencies and scripts").toList }]

/-- The `try` body of `generate_complete_project` (source lines 60-145):
intent analysis, frontend, backend, readme, package manifest, file manifest.
Each gateway response is a parameter; `.error ()` anywhere models a raised
exception escaping the body. -/
def projectTryBody (prompt : Str) (aResp fResp bResp : Except Unit Str) :
    Except Unit ProjectResult := do
  let analysis ← _analyze_user_intent aResp
  let fr ← _generate_contextual_frontend prompt analysis fResp
  let br ← _generate_backend bResp
  let readme := _generate_readme prompt
  let package_json := _generate_package_json prompt
  pure
    { html_content := fr.html
    , css_content := fr.css
    , js_content := fr.js
    , python_backend := br.python
    , requirements_txt := br.requirements
    , package_json := package_json
    , readme := readme
    , structure' := analysis
    , files := buildFiles fr br readme package_json }

/-- `_generate_fallback_project` (source lines 916-930): the video-platform
template, empty backend fields, `"# " + prompt` readme, empty file list and
empty structure dict. -/
def _generate_fallback_project (prompt : Str) : ProjectResult :=
  let fallback := _create_video_platform_fallback prompt
  { html_content := fallback.html
  , css_content := fallback.css
  , js_content := fallback.js
  , python_backend := []
  , requirements_txt := []
  , package_json := _generate_package_json prompt
  , readme := ("# ").toList ++ prompt
  , structure' := PyVal.obj []
  , files := [] }

/-- `generate_complete_project` (source lines 52-149): the whole `try` body
with the single `except` boundary that converts any exception into the full
fallback project. -/
def generate_complete_project (prompt : Str) (aResp fResp bResp : Except Unit Str) :
    ProjectResult :=
  match projectTryBody prompt aResp fResp bResp with
  | .ok r => r
  | .error _ => _generate_fallback_project prompt

/-- Html component of a Frontend Generator outcome (empty on the error case),
used to state concrete evaluations. -/
def frontendHtml (e : Except Unit FrontendResult) : Str :=
  match e with
  | .ok fr => fr.html
  | .error _ => []

/-- Concrete model response for the C3 counterexample: a fenced html document
of 464 characters that the structural repair grows past the 500-character
gate. -/
def bodyC3 : Str :=
  List.replicate 430 'a' ++ headCloseTag ++ List.replicate 20 'b' ++ bodyCloseTag

def respC3 : Str := ("```html\n").toList ++ bodyC3 ++ ("\n```").toList

/-- Concrete model response for the C5 witness: a fenced html document of 524
characters with exactly one `</head>` and one `</body>` and no link or script
tag. -/
def bodyC5w : Str :=
  List.replicate 480 'a' ++ headCloseTag ++ List.replicate 20 'b' ++ bodyCloseTag
    ++ List.replicate 10 'c'

def respC5w : Str := ("```html\n").toList ++ bodyC5w ++ ("\n```").toList

/-- Concrete model response for the C5 counterexample: a fenced html document
of 521 characters containing `</head>` twice. -/
def bodyC5c : Str :=
  List.replicate 480 'a' ++ headCloseTag ++ List.replicate 10 'b' ++ headCloseTag
    ++ List.replicate 10 'c' ++ bodyCloseTag

def respC5c : Str := ("```html\n").toList ++ bodyC5c ++ ("\n```").toList

/-- Concrete model response for the C6 witness: a fenced html document of 520
characters with no structural tags and no css/js fences. -/
def respC6w : Str := ("```html\n").toList ++ List.replicate 520 'a' ++ ("\n```").toList

/-- Concrete model response for the C7 counterexample: no fence, an `<html>`
document but no `<!DOCTYPE` marker. -/
def respC7 : Str := ("text <html>x</html> tail").toList

/-- Decidable check: no proper nonempty tail of `pat` occurs at the start of `y0`. -/
def noSpanRightChk (pat y0 : Str) : Bool :=
  (List.range pat.length).all (fun k => k == 0 || !(hasPre (pat.drop k) y0))

/-- Decidable check: no proper nonempty head of `pat` occurs at the end of `x0`. -/
def noSpanLeftChk (pat x0 : Str) : Bool :=
  (List.range pat.length).all (fun k => k == 0 || !(hasSuf (pat.take k) x0))

/-! ### Lemmas about the string primitives -/

theorem hasPre_length {p s : Str} (h : hasPre p s = true) : p.length ≤ s.length := by
  induction p generalizing s with
  | nil => simp
  | cons c p ih =>
    cases s with
    | nil => simp [hasPre] at h
    | cons d r =>
      simp only [hasPre, Bool.and_eq_true] at h
      simpa using ih h.2

theorem hasPre_append (p t : Str) : hasPre p (p ++ t) = true := by
  induction p with
  | nil => simp [hasPre]
  | cons c p ih => simp [hasPre, ih]

theorem hasPre_refl (p : Str) : hasPre p p = true := by
  have h := hasPre_append p []
  simpa using h

theorem hasPre_iff_append {p s : Str} : hasPre p s = true ↔ ∃ t, s = p ++ t := by
  constructor
  · intro h
    induction p generalizing s with
    | nil => exact ⟨s, rfl⟩
    | cons c p ih =>
      cases s with
      | nil => simp [hasPre] at h
      | cons d r =>
        simp only [hasPre, Bool.and_eq_true, decide_eq_true_eq] at h
        obtain ⟨t, ht⟩ := ih h.2
        exact ⟨t, by simp [h.1, ht]⟩
  · rintro ⟨t, rfl⟩
    exact hasPre_append p t

theorem hasPre_mono {p s : Str} (t : Str) (h : hasPre p s = true) :
    hasPre p (s ++ t) = true := by
  obtain ⟨u, rfl⟩ := hasPre_iff_append.1 h
  have := hasPre_append p (u ++ t)
  simpa using this

theorem hasPre_of_append_le {p a b : Str} (h : hasPre p (a ++ b) = true)
    (hl : p.length ≤ a.length) : hasPre p a = true := by
  induction p generalizing a with
  | nil => simp [hasPre]
  | cons c p ih =>
    cases a with
    | nil => simp at hl
    | cons d r =>
      simp only [List.cons_append, hasPre, Bool.and_eq_true] at h ⊢
      exact ⟨h.1, ih h.2 (by simpa using hl)⟩

theorem hasSuf_cons {q r : Str} (c : Char) (h : hasSuf q r = true) :
    hasSuf q (c :: r) = true := by
  unfold hasSuf at h ⊢
  rw [List.reverse_cons]
  exact hasPre_mono [c] h

theorem hasSuf_refl (p : Str) : hasSuf p p = true := hasPre_refl p.reverse

theorem hasSuf_of_append_le {q x x0 : Str} (h : hasSuf q (x ++ x0) = true)
    (hl : q.length ≤ x0.length) : hasSuf q x0 = true := by
  unfold hasSuf at h ⊢
  rw [List.reverse_append] at h
  exact hasPre_of_append_le h (by simpa using hl)

theorem hasPre_take_of_hasPre {p s : Str} {n : Nat} (h : hasPre p s = true)
    (hn : n ≤ p.length) : p.take n = s.take n := by
  obtain ⟨t, rfl⟩ := hasPre_iff_append.1 h
  rw [List.take_append_of_le_length hn]

theorem hasPre_drop {p s : Str} (n : Nat) (h : hasPre p s = true) :
    hasPre (p.drop n) (s.drop n) = true := by
  obtain ⟨t, rfl⟩ := hasPre_iff_append.1 h
  rcases Nat.le_total n p.length with hn | hn
  · rw [List.drop_append_of_le_length hn]
    exact hasPre_append _ t
  · rw [List.drop_eq_nil_of_le hn]
    simp [hasPre]

theorem countOcc_nil {pat : Str} (h : pat ≠ []) : countOcc [] pat = 0 := by
  cases pat with
  | nil => exact absurd rfl h
  | cons c p => simp [countOcc, hasPre]

theorem countOcc_cons (c : Char) (r pat : Str) :
    countOcc (c :: r) pat = (if hasPre pat (c :: r) then 1 else 0) + countOcc r pat := rfl

theorem countOcc_nil_pat (y : Str) : countOcc y [] = y.length + 1 := by
  induction y with
  | nil => simp [countOcc, hasPre]
  | cons c r ih => rw [countOcc_cons, ih]; simp [hasPre]; omega

theorem countOcc_le_append_left (x y pat : Str) :
    countOcc y pat ≤ countOcc (x ++ y) pat := by
  induction x with
  | nil => simp
  | cons c r ih =>
    rw [List.cons_append, countOcc_cons]
    omega

theorem countOcc_le_append_right (x y pat : Str) :
    countOcc x pat ≤ countOcc (x ++ y) pat := by
  induction x with
  | nil =>
    cases pat with
    | nil => simp [countOcc_nil_pat]
    | cons c p => rw [countOcc_nil (by simp)]; omega
  | cons c r ih =>
    rw [List.cons_append, countOcc_cons, countOcc_cons]
    have hmono : (if hasPre pat (c :: r) then 1 else 0)
        ≤ (if hasPre pat (c :: (r ++ y)) then 1 else 0) := by
      by_cases h : hasPre pat (c :: r) = true
      · have h2 : hasPre pat ((c :: r) ++ y) = true := hasPre_mono y h
        rw [List.cons_append] at h2
        simp [h, h2]
      · simp [h]
    omega

theorem containsSub_pos {s pat : Str} : containsSub s pat = true ↔ 0 < countOcc s pat := by
  induction s with
  | nil =>
    simp only [containsSub, countOcc]
    by_cases h : hasPre pat [] <;> simp [h]
  | cons c r ih =>
    simp only [containsSub, countOcc, Bool.or_eq_true]
    by_cases h : hasPre pat (c :: r) <;> simp [h, ih]

theorem countOcc_zero_iff {s pat : Str} : countOcc s pat = 0 ↔ containsSub s pat = false := by
  rw [← Bool.not_eq_true, containsSub_pos]
  omega

theorem containsSub_mid (x p y : Str) : containsSub (x ++ p ++ y) p = true := by
  induction x with
  | nil =>
    cases p with
    | nil => cases y with
      | nil => simp [containsSub, hasPre]
      | cons d r => simp [containsSub, hasPre]
    | cons c q =>
      simp only [List.nil_append, containsSub, Bool.or_eq_true]
      exact Or.inl (hasPre_append (c :: q) y)
  | cons c r ih =>
    simp only [List.cons_append, containsSub, Bool.or_eq_true]
    exact Or.inr ih

/-- Central splitting lemma: occurrences of a pattern in `x ++ y` are exactly
those of `x` plus those of `y`, provided no occurrence spans the boundary. -/
theorem countOcc_append_split {pat : Str} (x y : Str) (hpat : pat ≠ [])
    (hns : ∀ k, 0 < k → k < pat.length →
      ¬(hasSuf (pat.take k) x = true ∧ hasPre (pat.drop k) y = true)) :
    countOcc (x ++ y) pat = countOcc x pat + countOcc y pat := by
  induction x with
  | nil => rw [countOcc_nil hpat]; simp
  | cons c x' ih =>
    have hns' : ∀ k, 0 < k → k < pat.length →
        ¬(hasSuf (pat.take k) x' = true ∧ hasPre (pat.drop k) y = true) := by
      intro k hk1 hk2 hand
      exact hns k hk1 hk2 ⟨hasSuf_cons c hand.1, hand.2⟩
    rw [List.cons_append, countOcc_cons, countOcc_cons, ih hns']
    have hhead : hasPre pat (c :: (x' ++ y)) = hasPre pat (c :: x') := by
      by_cases h : hasPre pat (c :: x') = true
      · have h2 := hasPre_mono y h
        rw [List.cons_append] at h2
        rw [h, h2]
      · rw [Bool.not_eq_true] at h
        by_cases h2 : hasPre pat (c :: (x' ++ y)) = true
        · exfalso
          have h2' : hasPre pat ((c :: x') ++ y) = true := by
            rw [List.cons_append]; exact h2
          rcases Nat.le_total pat.length (c :: x').length with hl | hl
          · have h3 := hasPre_of_append_le h2' hl
            rw [h3] at h
            cases h
          · rcases Nat.lt_or_ge (c :: x').length pat.length with hlt | hge
            · apply hns ((c :: x').length) (by simp) hlt
              constructor
              · have htake : pat.take (c :: x').length = c :: x' := by
                  rw [hasPre_take_of_hasPre h2' hl, List.take_left]
                rw [htake]
                exact hasSuf_refl _
              · have hdrop := hasPre_drop ((c :: x').length) h2'
                rwa [List.drop_left] at hdrop
            · have h3 := hasPre_of_append_le h2' hge
              rw [h3] at h
              cases h
        · rw [Bool.not_eq_true] at h2
          rw [h2, h]
    rw [hhead]
    omega

/-- Split occurrences across a boundary whose right side starts with a
concrete block `y0` long enough to decide all spans. -/
theorem countOcc_split_right {pat : Str} (x y0 y : Str) (hpat : pat ≠ [])
    (hlen : pat.length ≤ y0.length + 1) (hchk : noSpanRightChk pat y0 = true) :
    countOcc (x ++ (y0 ++ y)) pat = countOcc x pat + countOcc (y0 ++ y) pat := by
  apply countOcc_append_split x (y0 ++ y) hpat
  intro k hk1 hk2 hand
  have hdl : (pat.drop k).length ≤ y0.length := by
    simp only [List.length_drop]
    omega
  have h2 := hasPre_of_append_le hand.2 hdl
  have := List.all_eq_true.1 hchk k (List.mem_range.2 hk2)
  simp only [Bool.or_eq_true, beq_iff_eq, Bool.not_eq_true'] at this
  rcases this with h0 | hfalse
  · omega
  · rw [h2] at hfalse
    cases hfalse

/-- Split occurrences across a boundary whose left side ends with a
concrete block `x0` long enough to decide all spans. -/
theorem countOcc_split_left {pat : Str} (x x0 y : Str) (hpat : pat ≠ [])
    (hlen : pat.length ≤ x0.length + 1) (hchk : noSpanLeftChk pat x0 = true) :
    countOcc ((x ++ x0) ++ y) pat = countOcc (x ++ x0) pat + countOcc y pat := by
  apply countOcc_append_split (x ++ x0) y hpat
  intro k hk1 hk2 hand
  have htl : (pat.take k).length ≤ x0.length := by
    simp only [List.length_take]
    omega
  have h1 := hasSuf_of_append_le hand.1 htl
  have := List.all_eq_true.1 hchk k (List.mem_range.2 hk2)
  simp only [Bool.or_eq_true, beq_iff_eq, Bool.not_eq_true'] at this
  rcases this with h0 | hfalse
  · omega
  · rw [h1] at hfalse
    cases hfalse

/-- `countOcc_split_left` with no prefix before the concrete block. -/
theorem countOcc_split_left0 {pat : Str} (x0 y : Str) (hpat : pat ≠ [])
    (hlen : pat.length ≤ x0.length + 1) (hchk : noSpanLeftChk pat x0 = true) :
    countOcc (x0 ++ y) pat = countOcc x0 pat + countOcc y pat := by
  have h := countOcc_split_left [] x0 y hpat hlen hchk
  simpa using h

/-- Fuel irrelevance for `replaceAllF`. -/
theorem replaceAllF_congr {pat repl : Str} :
    ∀ f₁ f₂ s, s.length < f₁ → s.length < f₂ →
      replaceAllF f₁ s pat repl = replaceAllF f₂ s pat repl := by
  intro f₁
  induction f₁ with
  | zero => intro f₂ s h1; omega
  | succ f ih =>
    intro f₂ s h1 h2
    cases f₂ with
    | zero => omega
    | succ g =>
      show replaceAllF (f + 1) s pat repl = replaceAllF (g + 1) s pat repl
      simp only [replaceAllF]
      by_cases he : pat.isEmpty
      · simp [he]
      · simp only [he, Bool.false_eq_true, if_false]
        by_cases hp : hasPre pat s = true
        · have hplen : 1 ≤ pat.length := by
            cases pat with
            | nil => simp [List.isEmpty] at he
            | cons a b => simp
          have hdrop : (s.drop pat.length).length < f := by
            have := hasPre_length hp
            simp only [List.length_drop]
            omega
          have hdrop2 : (s.drop pat.length).length < g := by
            have := hasPre_length hp
            simp only [List.length_drop]
            have hs : 1 ≤ s.length := by
              cases s with
              | nil => cases pat with
                | nil => simp [List.isEmpty] at he
                | cons a b => simp [hasPre] at hp
              | cons a b => simp
            omega
          rw [hp]
          simp only [if_true]
          rw [ih g (s.drop pat.length) hdrop hdrop2]
        · rw [Bool.not_eq_true] at hp
          rw [hp]
          simp only [Bool.false_eq_true, if_false]
          cases s with
          | nil => rfl
          | cons c r =>
            have hr1 : r.length < f := by simp at h1; omega
            have hr2 : r.length < g := by simp at h2; omega
            show c :: replaceAllF f r pat repl = c :: replaceAllF g r pat repl
            rw [ih g r hr1 hr2]

/-- One-step unfolding of `replaceAll` for a non-empty pattern. -/
theorem replaceAll_eq {pat : Str} (s repl : Str) (hpat : pat ≠ []) :
    replaceAll s pat repl =
      if hasPre pat s then repl ++ replaceAll (s.drop pat.length) pat repl
      else
        match s with
        | [] => []
        | c :: r => c :: replaceAll r pat repl := by
  show replaceAllF (s.length + 1) s pat repl = _
  simp only [replaceAllF]
  have he : pat.isEmpty = false := by
    cases pat with
    | nil => exact absurd rfl hpat
    | cons a b => rfl
  simp only [he, Bool.false_eq_true, if_false]
  by_cases hp : hasPre pat s = true
  · have hplen : 1 ≤ pat.length := by
      cases pat with
      | nil => exact absurd rfl hpat
      | cons a b => simp
    have hs : 1 ≤ s.length := by
      cases s with
      | nil => cases pat with
        | nil => exact absurd rfl hpat
        | cons a b => simp [hasPre] at hp
      | cons a b => simp
    rw [hp]
    simp only [if_true]
    congr 1
    apply replaceAllF_congr
    · simp only [List.length_drop]
      omega
    · simp only [List.length_drop]
      omega
  · rw [Bool.not_eq_true] at hp
    rw [hp]
    simp only [Bool.false_eq_true, if_false]
    cases s with
    | nil => rfl
    | cons c r =>
      show c :: replaceAllF r.length.succ r pat repl = c :: replaceAll r pat repl
      rfl

/-- A pattern that never occurs is not replaced. -/
theorem replaceAll_of_countOcc_zero {s pat repl : Str} (h : countOcc s pat = 0) :
    replaceAll s pat repl = s := by
  have hpat : pat ≠ [] := by
    intro he
    rw [he, countOcc_nil_pat] at h
    omega
  induction s with
  | nil =>
    rw [replaceAll_eq [] repl hpat]
    have : hasPre pat [] = false := by
      cases pat with
      | nil => exact absurd rfl hpat
      | cons a b => rfl
    rw [this]
    simp
  | cons c r ih =>
    rw [countOcc_cons] at h
    have hp : hasPre pat (c :: r) = false := by
      by_cases hb : hasPre pat (c :: r) = true
      · rw [hb] at h; simp at h
      · simp at hb
        exact hb
    have hr : countOcc r pat = 0 := by
      rw [hp] at h
      simpa using h
    rw [replaceAll_eq _ repl hpat, hp]
    simp only [Bool.false_eq_true, if_false]
    rw [ih hr]

/-- Replacing a pattern's unique occurrence. -/
theorem replaceAll_at {s a b pat repl : Str} (hpat : pat ≠ []) (hs : s = a ++ pat ++ b)
    (hone : countOcc s pat = 1) : replaceAll s pat repl = a ++ repl ++ b := by
  induction a generalizing s with
  | nil =>
    simp only [List.nil_append] at hs
    subst hs
    have hp : hasPre pat (pat ++ b) = true := hasPre_append pat b
    rw [replaceAll_eq _ repl hpat, hp]
    simp only [if_true]
    have hb0 : countOcc b pat = 0 := by
      cases pat with
      | nil => exact absurd rfl hpat
      | cons c p =>
        rw [List.cons_append, countOcc_cons] at hone
        have hle := countOcc_le_append_left p b (c :: p)
        rw [List.cons_append] at hp
        rw [hp] at hone
        simp only [if_true] at hone
        omega
    rw [List.drop_left, replaceAll_of_countOcc_zero hb0]
    simp
  | cons c a' iha =>
    subst hs
    have hshape : (c :: a') ++ pat ++ b = c :: (a' ++ pat ++ b) := by simp
    rw [hshape]
    have hp : hasPre pat (c :: (a' ++ pat ++ b)) = false := by
      by_cases hb : hasPre pat (c :: (a' ++ pat ++ b)) = true
      · exfalso
        rw [hshape] at hone
        rw [countOcc_cons, hb] at hone
        simp only [if_true] at hone
        have h1 : 1 ≤ countOcc (pat ++ b) pat := by
          cases pat with
          | nil => exact absurd rfl hpat
          | cons d p =>
            rw [List.cons_append, countOcc_cons]
            have : hasPre (d :: p) (d :: (p ++ b)) = true := by
              have := hasPre_append (d :: p) b
              simpa using this
            rw [this]
            simp
        have h2 := countOcc_le_append_left a' (pat ++ b) pat
        rw [List.append_assoc] at hone
        omega
      · simp only [Bool.not_eq_true, List.append_assoc] at hb ⊢
        exact hb
    rw [replaceAll_eq _ repl hpat, hp]
    simp only [Bool.false_eq_true, if_false]
    have hone' : countOcc (a' ++ pat ++ b) pat = 1 := by
      rw [hshape, countOcc_cons, hp] at hone
      simpa using hone
    rw [iha rfl hone']
    simp

theorem containsSub_append_self (x p : Str) : containsSub (x ++ p) p = true := by
  have h := containsSub_mid x p []
  simpa using h

theorem hasPre_nil_iff {pat : Str} : hasPre pat [] = true ↔ pat = [] := by
  cases pat with
  | nil => simp [hasPre]
  | cons c p => simp [hasPre]

theorem hasPre_split {pat s : Str} (h : hasPre pat s = true) :
    s = pat ++ s.drop pat.length := by
  obtain ⟨t, rfl⟩ := hasPre_iff_append.1 h
  rw [List.drop_left]

theorem splitFirst_of_firstOcc {s pat : Str} {i : Nat} (h : firstOcc s pat = some i) :
    splitFirst s pat = some (s.take i, s.drop (i + pat.length)) := by
  induction s generalizing i with
  | nil =>
    unfold firstOcc at h
    by_cases hp : hasPre pat [] = true
    · simp only [hp, if_true, Option.some.injEq] at h
      subst h
      unfold splitFirst
      rw [hp]
      simp
    · simp [hp] at h
  | cons c r ih =>
    unfold firstOcc at h
    by_cases hp : hasPre pat (c :: r) = true
    · simp only [hp, if_true, Option.some.injEq] at h
      subst h
      unfold splitFirst
      rw [hp]
      simp
    · simp only [hp, Bool.false_eq_true, if_false] at h
      cases h2 : firstOcc r pat with
      | none => rw [h2] at h; simp at h
      | some j =>
        rw [h2] at h
        simp only [Option.map_some', Option.some.injEq] at h
        subst h
        unfold splitFirst
        rw [if_neg (by simpa using hp), ih h2]
        simp [Nat.add_right_comm]

theorem splitFirst_none_of_firstOcc {s pat : Str} (h : firstOcc s pat = none) :
    splitFirst s pat = none := by
  induction s with
  | nil =>
    unfold firstOcc at h
    by_cases hp : hasPre pat [] = true
    · rw [hp] at h; simp at h
    · unfold splitFirst
      rw [if_neg (by simpa using hp)]
  | cons c r ih =>
    unfold firstOcc at h
    by_cases hp : hasPre pat (c :: r) = true
    · rw [hp] at h; simp at h
    · simp only [hp, Bool.false_eq_true, if_false] at h
      cases h2 : firstOcc r pat with
      | none =>
        unfold splitFirst
        rw [if_neg (by simpa using hp), ih h2]
        rfl
      | some j => rw [h2] at h; simp at h

theorem splitFirst_append {s pat p q : Str} (h : splitFirst s pat = some (p, q)) :
    s = p ++ pat ++ q := by
  induction s generalizing p q with
  | nil =>
    unfold splitFirst at h
    by_cases hp : hasPre pat [] = true
    · have hpat := hasPre_nil_iff.1 hp
      simp only [hp, if_true, Option.some.injEq, Prod.mk.injEq] at h
      rw [← h.1, ← h.2, hpat]
      simp
    · simp [hp] at h
  | cons c r ih =>
    unfold splitFirst at h
    by_cases hp : hasPre pat (c :: r) = true
    · simp only [hp, if_true, Option.some.injEq, Prod.mk.injEq] at h
      rw [← h.1, ← h.2]
      simp only [List.nil_append]
      exact hasPre_split hp
    · simp only [hp, Bool.false_eq_true, if_false] at h
      cases h2 : splitFirst r pat with
      | none => rw [h2] at h; simp at h
      | some pq =>
        rw [h2] at h
        simp only [Option.map_some', Option.some.injEq] at h
        obtain ⟨p', q'⟩ := pq
        have hr := ih h2
        simp only [Prod.mk.injEq] at h
        obtain ⟨hp1, hq1⟩ := h
        subst hp1
        subst hq1
        rw [List.cons_append, List.cons_append, hr]

theorem splitFirst_shrink {s pat p q : Str} (hpat : pat ≠ [])
    (h : splitFirst s pat = some (p, q)) : q.length < s.length := by
  have hs := splitFirst_append h
  have : pat.length ≥ 1 := by
    cases pat with
    | nil => exact absurd rfl hpat
    | cons a b => simp
  rw [hs]
  simp only [List.length_append]
  omega

theorem pySplitF_congr {sep : Str} :
    ∀ f₁ f₂ s, s.length < f₁ → s.length < f₂ → pySplitF f₁ s sep = pySplitF f₂ s sep := by
  intro f₁
  induction f₁ with
  | zero => intro f₂ s h1; omega
  | succ f ih =>
    intro f₂ s h1 h2
    cases f₂ with
    | zero => omega
    | succ g =>
      show pySplitF (f + 1) s sep = pySplitF (g + 1) s sep
      simp only [pySplitF]
      by_cases he : sep.isEmpty
      · simp [he]
      · simp only [he, Bool.false_eq_true, if_false]
        cases h3 : splitFirst s sep with
        | none => rfl
        | some pq =>
          obtain ⟨p, q⟩ := pq
          have hsep : sep ≠ [] := by
            cases sep with
            | nil => simp [List.isEmpty] at he
            | cons a b => simp
          have hq := splitFirst_shrink hsep h3
          show p :: pySplitF f q sep = p :: pySplitF g q sep
          rw [ih g q (by omega) (by omega)]

theorem pySplit_cons {s sep p q : Str} (hsep : sep ≠ [])
    (h : splitFirst s sep = some (p, q)) : pySplit s sep = p :: pySplit q sep := by
  show pySplitF (s.length + 1) s sep = _
  simp only [pySplitF]
  have he : sep.isEmpty = false := by
    cases sep with
    | nil => exact absurd rfl hsep
    | cons a b => rfl
  rw [h]
  have hq := splitFirst_shrink hsep h
  simp only [he, Bool.false_eq_true, if_false]
  show p :: pySplitF s.length q sep = p :: pySplit q sep
  rw [pySplitF_congr s.length (q.length + 1) q (by omega) (by omega)]
  rfl

theorem pySplit_single {s sep : Str} (h : splitFirst s sep = none) :
    pySplit s sep = [s] := by
  show pySplitF (s.length + 1) s sep = _
  simp only [pySplitF]
  have hsep : sep ≠ [] := by
    intro he
    subst he
    cases s with
    | nil => unfold splitFirst at h; simp [hasPre] at h
    | cons c r => unfold splitFirst at h; simp [hasPre] at h
  have he : sep.isEmpty = false := by
    cases sep with
    | nil => exact absurd rfl hsep
    | cons a b => rfl
  simp only [he, Bool.false_eq_true, if_false]
  rw [h]

theorem hasPre_take {pat s : Str} {n : Nat} (h : hasPre pat s = true)
    (hn : pat.length ≤ n) : hasPre pat (s.take n) = true := by
  obtain ⟨t, rfl⟩ := hasPre_iff_append.1 h
  obtain ⟨m, rfl⟩ := Nat.exists_eq_add_of_le hn
  rw [List.take_append]
  exact hasPre_append pat (t.take m)

theorem hasPre_of_take {pat s : Str} {n : Nat} (h : hasPre pat (s.take n) = true) :
    hasPre pat s = true := by
  have := hasPre_mono (s.drop n) h
  rwa [List.take_append_drop] at this

theorem firstOcc_take {s pat : Str} {i n : Nat} (h : firstOcc s pat = some i)
    (hn : i + pat.length ≤ n) : firstOcc (s.take n) pat = some i := by
  induction s generalizing i n with
  | nil => simpa using h
  | cons c r ih =>
    unfold firstOcc at h
    by_cases hp : hasPre pat (c :: r) = true
    · simp only [hp, if_true, Option.some.injEq] at h
      subst h
      have hp2 : hasPre pat ((c :: r).take n) = true := hasPre_take hp (by omega)
      cases n with
      | zero =>
        have : pat = [] := by
          cases pat with
          | nil => rfl
          | cons a b => simp at hn
        subst this
        simp [firstOcc, hasPre]
      | succ m =>
        simp only [List.take_succ_cons]
        unfold firstOcc
        rw [List.take_succ_cons] at hp2
        rw [hp2]
        simp
    · simp only [hp, Bool.false_eq_true, if_false] at h
      cases h2 : firstOcc r pat with
      | none => rw [h2] at h; simp at h
      | some j =>
        rw [h2] at h
        simp only [Option.map_some', Option.some.injEq] at h
        subst h
        cases n with
        | zero => omega
        | succ m =>
          simp only [List.take_succ_cons]
          unfold firstOcc
          have hp3 : hasPre pat ((c :: r).take (m + 1)) = false := by
            by_cases hb : hasPre pat ((c :: r).take (m + 1)) = true
            · have := hasPre_of_take hb
              rw [this] at hp
              exact absurd rfl hp
            · rw [Bool.not_eq_true] at hb
              exact hb
          rw [List.take_succ_cons] at hp3
          rw [hp3]
          simp only [Bool.false_eq_true, if_false]
          rw [ih h2 (by omega)]
          rfl

theorem pyStrip_of_ends {s : Str} (h1 : s.dropWhile isPySpace = s)
    (h2 : s.reverse.dropWhile isPySpace = s.reverse) : pyStrip s = s := by
  unfold pyStrip
  rw [h1, h2, List.reverse_reverse]

theorem dropWhile_cons_self {p : Char → Bool} {c : Char} {r : Str} (h : p c = false) :
    List.dropWhile p (c :: r) = c :: r := by
  rw [List.dropWhile_cons, h]
  simp

/-! ### Helper lemmas about the pipeline -/

theorem exbind_ok {α β γ : Type} {x : Except γ α} {g : α → Except γ β} {r : β}
    (h : x >>= g = .ok r) : ∃ a, x = .ok a ∧ g a = .ok r := by
  cases x with
  | error e =>
    exact absurd h (by simp [Bind.bind, Except.bind])
  | ok a => exact ⟨a, rfl, h⟩

theorem buildFiles_ne_nil (fr : FrontendResult) (br : BackendResult)
    (readme package_json : Str) : buildFiles fr br readme package_json ≠ [] := by
  intro h
  have := congrArg List.length h
  simp only [buildFiles, List.length_append, List.length_nil, List.length_cons] at this
  omega

theorem projectTryBody_files {prompt : Str} {a f b : Except Unit Str} {r : ProjectResult}
    (h : projectTryBody prompt a f b = .ok r) : r.files ≠ [] := by
  unfold projectTryBody at h
  obtain ⟨an, _, h⟩ := exbind_ok h
  obtain ⟨fr, _, h⟩ := exbind_ok h
  obtain ⟨br, _, h⟩ := exbind_ok h
  have hr : r = { html_content := fr.html, css_content := fr.css, js_content := fr.js
                , python_backend := br.python, requirements_txt := br.requirements
                , package_json := _generate_package_json prompt
                , readme := _generate_readme prompt, structure' := an
                , files := buildFiles fr br (_generate_readme prompt) (_generate_package_json prompt) } := by
    have := h
    simp only [pure, Except.pure, Except.ok.injEq] at this
    exact this.symm
  rw [hr]
  exact buildFiles_ne_nil _ _ _ _

/-- A passed prompt-construction phase implies the analysis is a dict. -/
theorem buildPromptChecks_obj {analysis : PyVal}
    (h : buildPromptChecks analysis = .ok ()) : ∃ kvs, analysis = PyVal.obj kvs := by
  cases analysis with
  | obj kvs => exact ⟨kvs, rfl⟩
  | str s => exact absurd h (by simp [buildPromptChecks, pyGet, Bind.bind, Except.bind])
  | num s => exact absurd h (by simp [buildPromptChecks, pyGet, Bind.bind, Except.bind])
  | bool b => exact absurd h (by simp [buildPromptChecks, pyGet, Bind.bind, Except.bind])
  | null => exact absurd h (by simp [buildPromptChecks, pyGet, Bind.bind, Except.bind])
  | list xs => exact absurd h (by simp [buildPromptChecks, pyGet, Bind.bind, Except.bind])

/-! ### The claims -/

/-- C9: `resolveModel` maps each of the four supported identifiers to its
documented (provider, modelName) pair, and every other identifier string to
the fixed default pair `("openai", "gpt-5")`. -/
theorem C9_model_config (m : Str) :
    _get_model_config ("claude-sonnet-4").toList
        = (("anthropic").toList, ("claude-4-sonnet-20250514").toList)
  ∧ _get_model_config ("gpt-5").toList = (("openai").toList, ("gpt-5").toList)
  ∧ _get_model_config ("gpt-5-mini").toList = (("openai").toList, ("gpt-5-mini").toList)
  ∧ _get_model_config ("gemini-2.5-pro").toList = (("gemini").toList, ("gemini-2.5-pro").toList)
  ∧ (m ≠ ("claude-sonnet-4").toList → m ≠ ("gpt-5").toList → m ≠ ("gpt-5-mini").toList →
      m ≠ ("gemini-2.5-pro").toList →
      _get_model_config m = (("openai").toList, ("gpt-5").toList)) := by
  refine ⟨rfl, rfl, rfl, rfl, ?_⟩
  intro h1 h2 h3 h4
  unfold _get_model_config
  rw [if_neg h1, if_neg h2, if_neg h3, if_neg h4]

/-- Witness for C9 at the unsupported identifier "llama-3". -/
theorem C9_model_config_witness :
    _get_model_config ("llama-3").toList = (("openai").toList, ("gpt-5").toList) :=
  (C9_model_config ("llama-3").toList).2.2.2.2 (by decide) (by decide) (by decide) (by decide)

/-- C10: `_extract_code_block` matches "```" + label as a raw substring: on a
text whose only fence is labelled "json", querying the label "js" returns the
remainder of the longer label followed by that fence's content (trimmed),
not nothing. -/
theorem C10_raw_marker_match :
    _extract_code_block ("```json\n\x7b\"a\": 1\x7d\n```").toList (("js").toList)
        = some (("on\n\x7b\"a\": 1\x7d").toList)
  ∧ _extract_code_block ("```json\n\x7b\"a\": 1\x7d\n```").toList (("json").toList)
        = some (("\x7b\"a\": 1\x7d").toList)
  ∧ countOcc (("```json\n\x7b\"a\": 1\x7d\n```").toList) bt3 = 2 := by
  refine ⟨rfl, rfl, by decide⟩

/-- C2: when every gateway exchange raises, `generate_complete_project`
returns the fallback project: the video-platform template's html/css/js,
empty backend fields, and a readme containing the literal original prompt. -/
theorem C2_all_gateway_failures (prompt : Str) :
    generate_complete_project prompt (.error ()) (.error ()) (.error ())
        = _generate_fallback_project prompt
  ∧ (_generate_fallback_project prompt).html_content = vpHtml
  ∧ (_generate_fallback_project prompt).css_content = vpCss
  ∧ (_generate_fallback_project prompt).js_content = vpJs
  ∧ (_generate_fallback_project prompt).python_backend = []
  ∧ (_generate_fallback_project prompt).requirements_txt = []
  ∧ containsSub (_generate_fallback_project prompt).readme prompt = true := by
  refine ⟨rfl, rfl, rfl, rfl, rfl, rfl, ?_⟩
  exact containsSub_append_self (("# ").toList) prompt

/-- C1 counterexample: with every exchange failing, the returned
ProjectResult's file list is empty, refuting "always ... non-empty". -/
theorem C1_counterexample :
    (generate_complete_project ("make me a site").toList
      (.error ()) (.error ()) (.error ())).files = [] := rfl

/-- C1 amended: `generate_complete_project` is total — it always returns a
ProjectResult (the `except` boundary converts any internal exception into
the fallback project) — and the file list is non-empty except in the
exception path, whose fallback result carries an empty file list. -/
theorem C1_total_with_fallback (prompt : Str) (aResp fResp bResp : Except Unit Str) :
    generate_complete_project prompt aResp fResp bResp = _generate_fallback_project prompt
  ∨ (generate_complete_project prompt aResp fResp bResp).files ≠ [] := by
  unfold generate_complete_project
  cases h : projectTryBody prompt aResp fResp bResp with
  | error e => exact Or.inl rfl
  | ok r => exact Or.inr (projectTryBody_files h)

/-- C4 amended: whenever the json payload fails to parse — malformed text —
the Intent Analyzer's parsing phase returns the fixed default descriptor
(and, being total, never surfaces an error); but a payload that parses as
valid JSON without the required keys is returned as-is, not replaced by the
default (see the counterexample). -/
theorem C4_default_on_parse_failure (response : Str)
    (h : jsonLoads (extractJsonStr response) = none) :
    _analyze_user_intent_parse response = defaultIntent := by
  unfold _analyze_user_intent_parse
  rw [h]

/-- Witness for C4 at a malformed response. -/
theorem C4_default_on_parse_failure_witness :
    jsonLoads (extractJsonStr ("this is not json").toList) = none
  ∧ _analyze_user_intent_parse ("this is not json").toList = defaultIntent :=
  ⟨rfl, C4_default_on_parse_failure (("this is not json").toList) rfl⟩

/-- C4 counterexample: the empty json object parses, misses every required
key, and is returned unchanged — not the default descriptor. -/
theorem C4_counterexample :
    _analyze_user_intent_parse ("\x7b\x7d").toList = PyVal.obj []
  ∧ PyVal.obj [] ≠ defaultIntent := by
  refine ⟨rfl, ?_⟩
  intro h
  simp [defaultIntent] at h

theorem bt3_cons : bt3 = '`' :: '`' :: '`' :: [] := rfl

theorem marker_ne_nil (label : Str) : bt3 ++ label ≠ [] := by
  rw [bt3_cons]
  simp

/-- C8: `extractCodeBlock` returns nothing for any text lacking the fence
marker of the requested label; and on a text whose first marker occurrence
opens a block closed by the next fence — with any further occurrence of the
marker only after that fence, as with several labelled blocks — it returns
the first block's content only, trimmed. -/
theorem C8_extract_code_block (text label pre mid rest : Str) :
    (containsSub text (bt3 ++ label) = false → _extract_code_block text label = none)
  ∧ (text = pre ++ (bt3 ++ label) ++ (mid ++ bt3 ++ rest) →
     firstOcc text (bt3 ++ label) = some pre.length →
     firstOcc (mid ++ bt3 ++ rest) bt3 = some mid.length →
     (firstOcc (mid ++ bt3 ++ rest) (bt3 ++ label) = none ∨
       ∃ j, firstOcc (mid ++ bt3 ++ rest) (bt3 ++ label) = some j ∧ mid.length + 3 ≤ j) →
     _extract_code_block text label = some (pyStrip mid)) := by
  constructor
  · intro h
    unfold _extract_code_block
    simp only [h, Bool.false_eq_true, if_false]
  · intro htext hfo hclose hnext
    have hmne : bt3 ++ label ≠ [] := marker_ne_nil label
    have hbne : bt3 ≠ [] := by rw [bt3_cons]; simp
    have hcontains : containsSub text (bt3 ++ label) = true := by
      rw [htext]
      exact containsSub_mid pre (bt3 ++ label) (mid ++ bt3 ++ rest)
    have hsf : splitFirst text (bt3 ++ label)
        = some (text.take pre.length, text.drop (pre.length + (bt3 ++ label).length)) :=
      splitFirst_of_firstOcc hfo
    have htake : text.take pre.length = pre := by
      rw [htext, List.append_assoc, List.take_left]
    have hdrop : text.drop (pre.length + (bt3 ++ label).length) = mid ++ bt3 ++ rest := by
      rw [htext, ← List.length_append, List.drop_left]
    rw [htake, hdrop] at hsf
    have hps : pySplit text (bt3 ++ label) = pre :: pySplit (mid ++ bt3 ++ rest) (bt3 ++ label) :=
      pySplit_cons hmne hsf
    have hmidtake : (mid ++ bt3 ++ rest).take mid.length = mid := by
      rw [List.append_assoc, List.take_left]
    have hinner : ∀ q : Str, firstOcc q bt3 = some mid.length → q.take mid.length = mid →
        (pySplit q bt3).headD [] = mid := by
      intro q hq htq
      have hsq : splitFirst q bt3 = some (q.take mid.length, q.drop (mid.length + bt3.length)) :=
        splitFirst_of_firstOcc hq
      rw [htq] at hsq
      rw [pySplit_cons hbne hsq]
      rfl
    unfold _extract_code_block
    simp only [hcontains, if_true, hps]
    rcases hnext with hnone | ⟨j, hj, hjge⟩
    · have hsingle : pySplit (mid ++ bt3 ++ rest) (bt3 ++ label) = [mid ++ bt3 ++ rest] :=
        pySplit_single (splitFirst_none_of_firstOcc hnone)
      rw [hsingle]
      have hlen2 : 1 < (pre :: [mid ++ bt3 ++ rest] : List Str).length := by simp
      rw [if_pos hlen2]
      have hgd : List.getD (pre :: [mid ++ bt3 ++ rest] : List Str) 1 []
          = mid ++ bt3 ++ rest := rfl
      rw [hgd, hinner (mid ++ bt3 ++ rest) hclose hmidtake]
    · have hsfj : splitFirst (mid ++ bt3 ++ rest) (bt3 ++ label)
          = some ((mid ++ bt3 ++ rest).take j,
              (mid ++ bt3 ++ rest).drop (j + (bt3 ++ label).length)) :=
        splitFirst_of_firstOcc hj
      rw [pySplit_cons hmne hsfj]
      have h1lt : 1 < ((pre :: (mid ++ bt3 ++ rest).take j ::
          pySplit ((mid ++ bt3 ++ rest).drop (j + (bt3 ++ label).length)) (bt3 ++ label))).length := by
        simp
      rw [if_pos h1lt]
      have hfoj : firstOcc ((mid ++ bt3 ++ rest).take j) bt3 = some mid.length := by
        apply firstOcc_take hclose
        have hb3 : bt3.length = 3 := rfl
        omega
      have htkj : ((mid ++ bt3 ++ rest).take j).take mid.length = mid := by
        rw [List.take_take]
        have hmin : min mid.length j = mid.length := by omega
        rw [hmin, hmidtake]
      have hgd : List.getD (pre :: (mid ++ bt3 ++ rest).take j ::
          pySplit ((mid ++ bt3 ++ rest).drop (j + (bt3 ++ label).length)) (bt3 ++ label)) 1 []
            = (mid ++ bt3 ++ rest).take j := rfl
      rw [hgd, hinner ((mid ++ bt3 ++ rest).take j) hfoj htkj]

/-- Witness for C8: absent label, and two "js"-labelled blocks taking the
first one's trimmed content. -/
theorem C8_extract_code_block_witness :
    _extract_code_block ("no fence here").toList (("js").toList) = none
  ∧ _extract_code_block
      (("x").toList ++ (bt3 ++ ("js").toList)
        ++ (("\nA\n").toList ++ bt3 ++ ("y```js\nB\n```").toList)) (("js").toList)
      = some (("A").toList) := by
  constructor
  · exact (C8_extract_code_block (("no fence here").toList) (("js").toList) [] [] []).1
      (by decide)
  · have h := (C8_extract_code_block
      (("x").toList ++ (bt3 ++ ("js").toList)
        ++ (("\nA\n").toList ++ bt3 ++ ("y```js\nB\n```").toList))
      (("js").toList) (("x").toList) (("\nA\n").toList) (("y```js\nB\n```").toList)).2
      rfl (by decide) (by decide) (Or.inr ⟨7, by decide, by decide⟩)
    rw [h]
    rfl

theorem firstOcc_none_of_not_contains {s pat : Str} (h : containsSub s pat = false) :
    firstOcc s pat = none := by
  induction s with
  | nil =>
    unfold containsSub at h
    unfold firstOcc
    rw [h]
    simp
  | cons c r ih =>
    unfold containsSub at h
    simp only [Bool.or_eq_false_iff] at h
    unfold firstOcc
    rw [h.1, ih h.2]
    simp

/-- C7 amended: the Frontend Generator falls back to direct-document
extraction only when the raw response contains `<!DOCTYPE` (the `<html`
marker alone does not trigger the fallback — see the counterexample);
`_extract_html_direct` itself prefers the first `<!DOCTYPE`, falls back to
the first `<html`, returns the substring through the last `</html>`
inclusive, and returns nothing when no start marker is present. -/
theorem C7_direct_extraction (r text a b c : Str) :
    (pyOrS (_extract_code_block r (("html").toList)) [] = [] →
      containsSub r doctypeTag = true → extractedHtml r = _extract_html_direct r)
  ∧ (containsSub text doctypeTag = false → containsSub text htmlOpenTag = false →
      _extract_html_direct text = [])
  ∧ (text = a ++ (doctypeTag ++ (b ++ (htmlCloseTag ++ c))) →
      firstOcc text doctypeTag = some a.length →
      lastOcc text htmlCloseTag = some (a.length + 9 + b.length) →
      _extract_html_direct text = doctypeTag ++ (b ++ htmlCloseTag))
  ∧ (containsSub text doctypeTag = false →
      text = a ++ (htmlOpenTag ++ (b ++ (htmlCloseTag ++ c))) →
      firstOcc text htmlOpenTag = some a.length →
      lastOcc text htmlCloseTag = some (a.length + 5 + b.length) →
      _extract_html_direct text = htmlOpenTag ++ (b ++ htmlCloseTag)) := by
  refine ⟨?_, ?_, ?_, ?_⟩
  · intro h1 h2
    unfold extractedHtml
    rw [h1, h2]
    simp
  · intro h1 h2
    unfold _extract_html_direct
    rw [firstOcc_none_of_not_contains h1, firstOcc_none_of_not_contains h2]
  · intro htext hfo hlo
    unfold _extract_html_direct
    rw [hfo, hlo]
    simp only []
    rw [htext, List.drop_left]
    have hidx : a.length + 9 + b.length + 7 - a.length = 9 + (b.length + 7) := by omega
    rw [hidx]
    have hgrp : doctypeTag ++ (b ++ (htmlCloseTag ++ c))
        = (doctypeTag ++ (b ++ htmlCloseTag)) ++ c := by simp
    rw [hgrp]
    have hlen : (doctypeTag ++ (b ++ htmlCloseTag)).length = 9 + (b.length + 7) := by
      simp only [List.length_append]
      have h9 : doctypeTag.length = 9 := rfl
      have h7 : htmlCloseTag.length = 7 := rfl
      omega
    rw [← hlen, List.take_left]
    apply pyStrip_of_ends
    · have hdt : doctypeTag = '<' :: ("!DOCTYPE").toList := rfl
      rw [hdt]
      simp only [List.cons_append]
      exact dropWhile_cons_self (by rfl)
    · have hch : htmlCloseTag = ("</html").toList ++ ['>'] := rfl
      rw [hch]
      have hgrp2 : doctypeTag ++ (b ++ (("</html").toList ++ ['>']))
          = (doctypeTag ++ (b ++ ("</html").toList)) ++ ['>'] := by simp
      rw [hgrp2, List.reverse_append]
      simp only [List.reverse_cons, List.reverse_nil, List.nil_append, List.singleton_append]
      exact dropWhile_cons_self (by rfl)
  · intro hnodt htext hfo hlo
    unfold _extract_html_direct
    rw [firstOcc_none_of_not_contains hnodt, hfo, hlo]
    simp only []
    rw [htext, List.drop_left]
    have hidx : a.length + 5 + b.length + 7 - a.length = 5 + (b.length + 7) := by omega
    rw [hidx]
    have hgrp : htmlOpenTag ++ (b ++ (htmlCloseTag ++ c))
        = (htmlOpenTag ++ (b ++ htmlCloseTag)) ++ c := by simp
    rw [hgrp]
    have hlen : (htmlOpenTag ++ (b ++ htmlCloseTag)).length = 5 + (b.length + 7) := by
      simp only [List.length_append]
      have h5 : htmlOpenTag.length = 5 := rfl
      have h7 : htmlCloseTag.length = 7 := rfl
      omega
    rw [← hlen, List.take_left]
    apply pyStrip_of_ends
    · have hdt : htmlOpenTag = '<' :: ("html").toList := rfl
      rw [hdt]
      simp only [List.cons_append]
      exact dropWhile_cons_self (by rfl)
    · have hch : htmlCloseTag = ("</html").toList ++ ['>'] := rfl
      rw [hch]
      have hgrp2 : htmlOpenTag ++ (b ++ (("</html").toList ++ ['>']))
          = (htmlOpenTag ++ (b ++ ("</html").toList)) ++ ['>'] := by simp
      rw [hgrp2, List.reverse_append]
      simp only [List.reverse_cons, List.reverse_nil, List.nil_append, List.singleton_append]
      exact dropWhile_cons_self (by rfl)

/-- Witness for C7: the trigger with `<!DOCTYPE` present, the empty result
with no marker, and both slice computations at concrete documents. -/
theorem C7_direct_extraction_witness :
    extractedHtml ("pre <!DOCTYPE html>x</html> post").toList
        = _extract_html_direct ("pre <!DOCTYPE html>x</html> post").toList
  ∧ _extract_html_direct ("nothing here").toList = []
  ∧ _extract_html_direct ("pre <!DOCTYPE html>x</html> post").toList
      = doctypeTag ++ ((" html>x").toList ++ htmlCloseTag)
  ∧ _extract_html_direct ("pre <html>x</html> post").toList
      = htmlOpenTag ++ ((">x").toList ++ htmlCloseTag) := by
  refine ⟨?_, ?_, ?_, ?_⟩
  · exact (C7_direct_extraction ("pre <!DOCTYPE html>x</html> post").toList [] [] [] []).1
      (by rfl) (by decide)
  · exact (C7_direct_extraction [] ("nothing here").toList [] [] []).2.1
      (by decide) (by decide)
  · exact (C7_direct_extraction [] ("pre <!DOCTYPE html>x</html> post").toList
      (("pre ").toList) ((" html>x").toList) ((" post").toList)).2.2.1
      (by decide) (by decide) (by decide)
  · exact (C7_direct_extraction [] ("pre <html>x</html> post").toList
      (("pre ").toList) ((">x").toList) ((" post").toList)).2.2.2
      (by decide) (by decide) (by decide) (by decide)

/-- C7 counterexample: a response with no html fence and an `<html` document
start but no `<!DOCTYPE`: direct extraction would return the document, yet
the generator's extraction stays empty — the fallback is not invoked. -/
theorem C7_counterexample :
    pyOrS (_extract_code_block respC7 (("html").toList)) [] = []
  ∧ containsSub respC7 htmlOpenTag = true
  ∧ _extract_html_direct respC7 = ("<html>x</html>").toList
  ∧ extractedHtml respC7 = [] := by
  refine ⟨rfl, by decide, rfl, rfl⟩

theorem gcf_processResponse {prompt : Str} {analysis : PyVal} {r : Str}
    (hchk : buildPromptChecks analysis = .ok ()) :
    _generate_contextual_frontend prompt analysis (.ok r)
      = processResponse prompt analysis r := by
  unfold _generate_contextual_frontend
  rw [hchk]
  rfl

/-- C6: when the html quality gate passes and the extracted css is shorter
than 300 characters, the returned css is the enhancement block selected by
the intent's application type (the video-platform block for app_type
"video_platform", the generic dark-modern block otherwise), joined to the
original css. -/
theorem C6_css_enhancement (prompt : Str) (analysis : PyVal) (r : Str)
    (hchk : buildPromptChecks analysis = .ok ())
    (hgate : 500 ≤ (repairHtml (extractedHtml r)).length)
    (hcss : (extractedCss r).length < 300) :
    _generate_contextual_frontend prompt analysis (.ok r)
      = .ok { html := repairHtml (extractedHtml r)
            , css := (if pyStrEq (pyGetD analysis (("app_type").toList)
                          (.str ("landing_page").toList)) (("video_platform").toList)
                      then vpEnhancement else genericEnhancement)
                ++ ("\n\n").toList ++ extractedCss r
            , js := extractedJs r } := by
  obtain ⟨kvs, hobj⟩ := buildPromptChecks_obj hchk
  rw [gcf_processResponse hchk]
  unfold processResponse
  rw [if_neg (by omega), if_pos hcss]
  subst hobj
  cases hb : pyStrEq (pyGetD (PyVal.obj kvs) (("app_type").toList)
      (.str ("landing_page").toList)) (("video_platform").toList) with
  | true =>
    simp only [pyGetD] at hb
    simp only [_enhance_css_for_app_type, pyGet, Bind.bind, Except.bind, pyGetD, hb,
      if_true, pure, Except.pure]
  | false =>
    simp only [pyGetD] at hb
    simp only [_enhance_css_for_app_type, pyGet, Bind.bind, Except.bind, pyGetD, hb,
      Bool.false_eq_true, if_false, pure, Except.pure]

set_option maxRecDepth 8000 in
/-- Witness for C6: a 520-character fenced html document with no css fence;
the returned css is the generic enhancement block followed by the (empty)
original css. -/
theorem C6_css_enhancement_witness :
    _generate_contextual_frontend ("p").toList defaultIntent (.ok respC6w)
      = .ok { html := repairHtml (extractedHtml respC6w)
            , css := genericEnhancement ++ ("\n\n").toList ++ extractedCss respC6w
            , js := extractedJs respC6w } := by
  have h := C6_css_enhancement ("p").toList defaultIntent respC6w rfl (by decide) (by decide)
  rw [h, if_neg (by decide)]

/-- C3 amended: the 500-character quality gate is applied to the html AFTER
structural repair (not to the extracted html — see the counterexample, where
an extracted html of 464 characters passes the gate after repair): whenever
the repaired html is strictly shorter than 500 characters the generator
abandons the model output and returns the fallback artifact set selected by
the intent's application type, whose html length is the template's length. -/
theorem C3_gate_on_repaired_html (prompt : Str) (analysis : PyVal) (r : Str)
    (hchk : buildPromptChecks analysis = .ok ())
    (hshort : (repairHtml (extractedHtml r)).length < 500) :
    _generate_contextual_frontend prompt analysis (.ok r)
      = .ok (if pyStrEq (pyGetD analysis (("app_type").toList)
                (.str ("landing_page").toList)) (("video_platform").toList)
             then _create_video_platform_fallback prompt
             else _create_generic_fallback prompt)
  ∧ (frontendHtml (_generate_contextual_frontend prompt analysis (.ok r))).length
      = (if pyStrEq (pyGetD analysis (("app_type").toList)
            (.str ("landing_page").toList)) (("video_platform").toList)
         then _create_video_platform_fallback prompt
         else _create_generic_fallback prompt).html.length := by
  obtain ⟨kvs, hobj⟩ := buildPromptChecks_obj hchk
  have h1 : _generate_contextual_frontend prompt analysis (.ok r)
      = .ok (if pyStrEq (pyGetD analysis (("app_type").toList)
                (.str ("landing_page").toList)) (("video_platform").toList)
             then _create_video_platform_fallback prompt
             else _create_generic_fallback prompt) := by
    rw [gcf_processResponse hchk]
    unfold processResponse
    rw [if_pos hshort]
    subst hobj
    cases hb : pyStrEq (pyGetD (PyVal.obj kvs) (("app_type").toList)
        (.str ("landing_page").toList)) (("video_platform").toList) with
    | true =>
      simp only [pyGetD] at hb
      simp only [_generate_fallback_frontend, pyGet, Bind.bind, Except.bind, pyGetD, hb,
        if_true, pure, Except.pure]
    | false =>
      simp only [pyGetD] at hb
      simp only [_generate_fallback_frontend, pyGet, Bind.bind, Except.bind, pyGetD, hb,
        Bool.false_eq_true, if_false, pure, Except.pure]
  refine ⟨h1, ?_⟩
  rw [h1]
  cases hb : pyStrEq (pyGetD analysis (("app_type").toList)
      (.str ("landing_page").toList)) (("video_platform").toList) with
  | true => rfl
  | false => rfl

set_option maxRecDepth 8000 in
/-- Witness for C3 (amended): an html fence whose content is 100 characters
(still short after repair, which inserts nothing without `</head>` or
`</body>` tags), with the default landing-page intent selecting the generic
fallback. -/
theorem C3_gate_on_repaired_html_witness :
    _generate_contextual_frontend ("p").toList defaultIntent
        (.ok (("```html\n").toList ++ List.replicate 100 'a' ++ ("\n```").toList))
      = .ok (_create_generic_fallback ("p").toList) := by
  have h := (C3_gate_on_repaired_html ("p").toList defaultIntent
    (("```html\n").toList ++ List.replicate 100 'a' ++ ("\n```").toList)
    rfl (by decide)).1
  rw [h, if_neg (by decide)]

set_option maxRecDepth 8000 in
/-- C3 counterexample: an extracted html of 464 characters (strictly shorter
than 500) containing `</head>` and `</body>`: the repair grows it to 545
characters, the gate passes, and the generator returns the repaired model
output (length 545) rather than the fallback artifact set selected by the
application type (whose html length is 0 here). -/
theorem C3_counterexample :
    (extractedHtml respC3).length = 464
  ∧ _generate_contextual_frontend ("p").toList defaultIntent (.ok respC3)
      = .ok { html := repairHtml (extractedHtml respC3)
            , css := genericEnhancement ++ ("\n\n").toList
            , js := [] }
  ∧ (repairHtml (extractedHtml respC3)).length = 545
  ∧ (_create_generic_fallback ("p").toList).html.length = 0 := by
  refine ⟨by decide, rfl, by decide, rfl⟩

theorem countOcc_drop_le (s pat : Str) (n : Nat) :
    countOcc (s.drop n) pat ≤ countOcc s pat := by
  induction s generalizing n with
  | nil => simp
  | cons c r ih =>
    cases n with
    | zero => simp
    | succ m =>
      rw [List.drop_succ_cons, countOcc_cons]
      have := ih m
      omega

/-- A pattern occurring exactly once splits the string in three, with no
occurrence in either remaining part. -/
theorem countOcc_one_split {s pat : Str} (hpat : pat ≠ []) (h : countOcc s pat = 1) :
    ∃ a b, s = a ++ pat ++ b ∧ countOcc a pat = 0 ∧ countOcc b pat = 0 := by
  induction s with
  | nil => rw [countOcc_nil hpat] at h; omega
  | cons c r ih =>
    rw [countOcc_cons] at h
    by_cases hp : hasPre pat (c :: r) = true
    · rw [hp] at h
      simp only [if_true] at h
      have hr0 : countOcc r pat = 0 := by omega
      refine ⟨[], (c :: r).drop pat.length, ?_, countOcc_nil hpat, ?_⟩
      · simpa using hasPre_split hp
      · have hp1 : 1 ≤ pat.length := by
          cases pat with
          | nil => exact absurd rfl hpat
          | cons a b => simp
        have hdd : (c :: r).drop pat.length = r.drop (pat.length - 1) := by
          cases pat with
          | nil => exact absurd rfl hpat
          | cons a p => simp
        rw [hdd]
        have := countOcc_drop_le r pat (pat.length - 1)
        omega
    · rw [Bool.not_eq_true] at hp
      rw [hp] at h
      simp only [Bool.false_eq_true, if_false, Nat.zero_add] at h
      obtain ⟨a, b, hab, ha0, hb0⟩ := ih h
      refine ⟨c :: a, b, by rw [hab]; simp, ?_, hb0⟩
      rw [countOcc_cons]
      have hpca : hasPre pat (c :: a) = false := by
        by_cases hb : hasPre pat (c :: a) = true
        · exfalso
          have h2 := hasPre_mono (pat ++ b) hb
          have : (c :: a) ++ (pat ++ b) = c :: r := by rw [hab]; simp
          rw [this] at h2
          rw [h2] at hp
          cases hp
        · rw [Bool.not_eq_true] at hb
          exact hb
      rw [hpca]
      simpa using ha0

/-- Occurrence count over a three-segment concatenation whose concrete middle
admits no spanning occurrence. -/
theorem countOcc_three {pat : Str} (x1 m1 x2 : Str) (hpat : pat ≠ [])
    (hlen : pat.length ≤ m1.length + 1)
    (hr : noSpanRightChk pat m1 = true) (hl : noSpanLeftChk pat m1 = true) :
    countOcc (x1 ++ (m1 ++ x2)) pat
      = countOcc x1 pat + (countOcc m1 pat + countOcc x2 pat) := by
  rw [countOcc_split_right x1 m1 x2 hpat hlen hr]
  rw [countOcc_split_left0 m1 x2 hpat hlen hl]

/-- Occurrence count over a five-segment concatenation with two concrete
middles admitting no spanning occurrence. -/
theorem countOcc_five {pat : Str} (x1 m1 x2 m2 x3 : Str) (hpat : pat ≠ [])
    (hlen1 : pat.length ≤ m1.length + 1)
    (hr1 : noSpanRightChk pat m1 = true) (hl1 : noSpanLeftChk pat m1 = true)
    (hlen2 : pat.length ≤ m2.length + 1)
    (hr2 : noSpanRightChk pat m2 = true) (hl2 : noSpanLeftChk pat m2 = true) :
    countOcc (x1 ++ (m1 ++ (x2 ++ (m2 ++ x3)))) pat
      = countOcc x1 pat
        + (countOcc m1 pat + (countOcc x2 pat + (countOcc m2 pat + countOcc x3 pat))) := by
  rw [countOcc_split_right x1 m1 (x2 ++ (m2 ++ x3)) hpat hlen1 hr1]
  rw [countOcc_split_left0 m1 (x2 ++ (m2 ++ x3)) hpat hlen1 hl1]
  rw [countOcc_split_right x2 m2 x3 hpat hlen2 hr2]
  rw [countOcc_split_left0 m2 x3 hpat hlen2 hl2]

/-- Unique-occurrence structural repair: on html at least 500 characters
long with exactly one `</head>`, exactly one `</body>`, no `<link` and no
`<script`, the repaired html contains exactly one `<link` and exactly one
`<script` occurrence, contains the inserted stylesheet line immediately
before `</head>` and the inserted script line immediately before `</body>`,
and is no shorter than the input. -/
theorem repairHtml_unique_insert (html : Str)
    (hlen : 500 ≤ html.length)
    (hhead : countOcc html headCloseTag = 1)
    (hbody : countOcc html bodyCloseTag = 1)
    (hlink : countOcc html linkTag = 0)
    (hscript : countOcc html scriptTag = 0) :
    countOcc (repairHtml html) linkTag = 1
  ∧ countOcc (repairHtml html) scriptTag = 1
  ∧ containsSub (repairHtml html) headReplStr = true
  ∧ containsSub (repairHtml html) bodyReplStr = true
  ∧ html.length ≤ (repairHtml html).length := by
  have hheadne : headCloseTag ≠ [] := by decide
  have hbodyne : bodyCloseTag ≠ [] := by decide
  have hlinkne : linkTag ≠ [] := by decide
  have hscriptne : scriptTag ≠ [] := by decide
  have hne : html.isEmpty = false := by
    cases html with
    | nil => simp at hlen
    | cons c r => rfl
  have hlinkF : containsSub html linkTag = false := countOcc_zero_iff.1 hlink
  have hheadT : containsSub html headCloseTag = true := containsSub_pos.2 (by omega)
  obtain ⟨a, b, hab, ha0, hb0⟩ := countOcc_one_split hheadne hhead
  have hout1 : replaceAll html headCloseTag headReplStr = a ++ headReplStr ++ b :=
    replaceAll_at hheadne hab hhead
  have habR : html = a ++ (headCloseTag ++ b) := by rw [hab, List.append_assoc]
  have h3body : countOcc a bodyCloseTag + countOcc b bodyCloseTag = 1 := by
    have h3 := countOcc_three a headCloseTag b hbodyne (by decide) (by decide) (by decide)
    rw [← habR] at h3
    have hm : countOcc headCloseTag bodyCloseTag = 0 := by decide
    omega
  have h3script : countOcc a scriptTag + countOcc b scriptTag = 0 := by
    have h3 := countOcc_three a headCloseTag b hscriptne (by decide) (by decide) (by decide)
    rw [← habR] at h3
    have hm : countOcc headCloseTag scriptTag = 0 := by decide
    omega
  have h3link : countOcc a linkTag + countOcc b linkTag = 0 := by
    have h3 := countOcc_three a headCloseTag b hlinkne (by decide) (by decide) (by decide)
    rw [← habR] at h3
    have hm : countOcc headCloseTag linkTag = 0 := by decide
    omega
  have hcond1 : (!html.isEmpty && !containsSub html linkTag
      && containsSub html headCloseTag) = true := by
    rw [hne, hlinkF, hheadT]
    rfl
  have hrepair : repairHtml html
      = (if !(a ++ headReplStr ++ b).isEmpty
            && !containsSub (a ++ headReplStr ++ b) scriptTag
            && containsSub (a ++ headReplStr ++ b) bodyCloseTag
         then replaceAll (a ++ headReplStr ++ b) bodyCloseTag bodyReplStr
         else a ++ headReplStr ++ b) := by
    unfold repairHtml
    rw [hcond1]
    simp only [if_true]
    rw [hout1]
  have hne1 : (a ++ headReplStr ++ b).isEmpty = false := by
    cases hx : a ++ headReplStr ++ b with
    | nil =>
      exfalso
      have hl := congrArg List.length hx
      simp only [List.length_append, List.length_nil] at hl
      have h53 : headReplStr.length = 53 := by decide
      omega
    | cons c r => rfl
  rcases Nat.lt_or_ge (countOcc b bodyCloseTag) 1 with hcb | hcb
  · -- the `</body>` occurrence lies in `a`, before `</head>`
    have hca : countOcc a bodyCloseTag = 1 := by omega
    obtain ⟨a1, a2, ha12, ha10, ha20⟩ := countOcc_one_split hbodyne hca
    have ha3s : countOcc a1 scriptTag + countOcc a2 scriptTag = 0 := by
      have h3 := countOcc_three a1 bodyCloseTag a2 hscriptne (by decide) (by decide) (by decide)
      have ha12R : a = a1 ++ (bodyCloseTag ++ a2) := by rw [ha12, List.append_assoc]
      rw [← ha12R] at h3
      have hm : countOcc bodyCloseTag scriptTag = 0 := by decide
      omega
    have ha3l : countOcc a1 linkTag + countOcc a2 linkTag = 0 := by
      have h3 := countOcc_three a1 bodyCloseTag a2 hlinkne (by decide) (by decide) (by decide)
      have ha12R : a = a1 ++ (bodyCloseTag ++ a2) := by rw [ha12, List.append_assoc]
      rw [← ha12R] at h3
      have hm : countOcc bodyCloseTag linkTag = 0 := by decide
      omega
    have hout1R : a ++ headReplStr ++ b
        = a1 ++ (bodyCloseTag ++ (a2 ++ (headReplStr ++ b))) := by
      rw [ha12]
      simp [List.append_assoc]
    have hscr1 : countOcc (a ++ headReplStr ++ b) scriptTag = 0 := by
      rw [hout1R, countOcc_five a1 bodyCloseTag a2 headReplStr b hscriptne
        (by decide) (by decide) (by decide) (by decide) (by decide) (by decide)]
      have hm1 : countOcc bodyCloseTag scriptTag = 0 := by decide
      have hm2 : countOcc headReplStr scriptTag = 0 := by decide
      omega
    have hbod1 : countOcc (a ++ headReplStr ++ b) bodyCloseTag = 1 := by
      rw [hout1R, countOcc_five a1 bodyCloseTag a2 headReplStr b hbodyne
        (by decide) (by decide) (by decide) (by decide) (by decide) (by decide)]
      have hm1 : countOcc bodyCloseTag bodyCloseTag = 1 := by decide
      have hm2 : countOcc headReplStr bodyCloseTag = 0 := by decide
      omega
    have hcond2 : (!(a ++ headReplStr ++ b).isEmpty
        && !containsSub (a ++ headReplStr ++ b) scriptTag
        && containsSub (a ++ headReplStr ++ b) bodyCloseTag) = true := by
      rw [hne1, countOcc_zero_iff.1 hscr1, containsSub_pos.2 (by omega : 0 < countOcc (a ++ headReplStr ++ b) bodyCloseTag)]
      rfl
    have hshape2 : a ++ headReplStr ++ b = a1 ++ bodyCloseTag ++ (a2 ++ (headReplStr ++ b)) := by
      rw [hout1R]
      simp [List.append_assoc]
    have hout2 : replaceAll (a ++ headReplStr ++ b) bodyCloseTag bodyReplStr
        = a1 ++ bodyReplStr ++ (a2 ++ (headReplStr ++ b)) :=
      replaceAll_at hbodyne hshape2 hbod1
    have hfin : repairHtml html = a1 ++ bodyReplStr ++ (a2 ++ (headReplStr ++ b)) := by
      rw [hrepair, hcond2]
      simp only [if_true]
      rw [hout2]
    have hfinR : repairHtml html = a1 ++ (bodyReplStr ++ (a2 ++ (headReplStr ++ b))) := by
      rw [hfin]
      simp [List.append_assoc]
    refine ⟨?_, ?_, ?_, ?_, ?_⟩
    · rw [hfinR, countOcc_five a1 bodyReplStr a2 headReplStr b hlinkne
        (by decide) (by decide) (by decide) (by decide) (by decide) (by decide)]
      have hm1 : countOcc bodyReplStr linkTag = 0 := by decide
      have hm2 : countOcc headReplStr linkTag = 1 := by decide
      omega
    · rw [hfinR, countOcc_five a1 bodyReplStr a2 headReplStr b hscriptne
        (by decide) (by decide) (by decide) (by decide) (by decide) (by decide)]
      have hm1 : countOcc bodyReplStr scriptTag = 1 := by decide
      have hm2 : countOcc headReplStr scriptTag = 0 := by decide
      omega
    · have hsh : repairHtml html = (a1 ++ bodyReplStr ++ a2) ++ headReplStr ++ b := by
        rw [hfin]
        simp [List.append_assoc]
      rw [hsh]
      exact containsSub_mid _ headReplStr _
    · rw [hfin]
      exact containsSub_mid _ bodyReplStr _
    · rw [hfinR]
      have hhl := congrArg List.length habR
      have hal := congrArg List.length ha12
      simp only [List.length_append] at hhl hal ⊢
      have h53 : headReplStr.length = 53 := by decide
      have h42 : bodyReplStr.length = 42 := by decide
      have h7a : headCloseTag.length = 7 := by decide
      have h7b : bodyCloseTag.length = 7 := by decide
      omega
  · -- the `</body>` occurrence lies in `b`, after `</head>`
    have hcb1 : countOcc b bodyCloseTag = 1 := by omega
    have hca0 : countOcc a bodyCloseTag = 0 := by omega
    obtain ⟨b1, b2, hb12, hb10, hb20⟩ := countOcc_one_split hbodyne hcb1
    have hb3s : countOcc b1 scriptTag + countOcc b2 scriptTag = 0 := by
      have h3 := countOcc_three b1 bodyCloseTag b2 hscriptne (by decide) (by decide) (by decide)
      have hb12R : b = b1 ++ (bodyCloseTag ++ b2) := by rw [hb12, List.append_assoc]
      rw [← hb12R] at h3
      have hm : countOcc bodyCloseTag scriptTag = 0 := by decide
      omega
    have hb3l : countOcc b1 linkTag + countOcc b2 linkTag = 0 := by
      have h3 := countOcc_three b1 bodyCloseTag b2 hlinkne (by decide) (by decide) (by decide)
      have hb12R : b = b1 ++ (bodyCloseTag ++ b2) := by rw [hb12, List.append_assoc]
      rw [← hb12R] at h3
      have hm : countOcc bodyCloseTag linkTag = 0 := by decide
      omega
    have hout1R : a ++ headReplStr ++ b
        = a ++ (headReplStr ++ (b1 ++ (bodyCloseTag ++ b2))) := by
      rw [hb12]
      simp [List.append_assoc]
    have hscr1 : countOcc (a ++ headReplStr ++ b) scriptTag = 0 := by
      rw [hout1R, countOcc_five a headReplStr b1 bodyCloseTag b2 hscriptne
        (by decide) (by decide) (by decide) (by decide) (by decide) (by decide)]
      have hm1 : countOcc headReplStr scriptTag = 0 := by decide
      have hm2 : countOcc bodyCloseTag scriptTag = 0 := by decide
      omega
    have hbod1 : countOcc (a ++ headReplStr ++ b) bodyCloseTag = 1 := by
      rw [hout1R, countOcc_five a headReplStr b1 bodyCloseTag b2 hbodyne
        (by decide) (by decide) (by decide) (by decide) (by decide) (by decide)]
      have hm1 : countOcc headReplStr bodyCloseTag = 0 := by decide
      have hm2 : countOcc bodyCloseTag bodyCloseTag = 1 := by decide
      omega
    have hcond2 : (!(a ++ headReplStr ++ b).isEmpty
        && !containsSub (a ++ headReplStr ++ b) scriptTag
        && containsSub (a ++ headReplStr ++ b) bodyCloseTag) = true := by
      rw [hne1, countOcc_zero_iff.1 hscr1, containsSub_pos.2 (by omega : 0 < countOcc (a ++ headReplStr ++ b) bodyCloseTag)]
      rfl
    have hshape2 : a ++ headReplStr ++ b = (a ++ (headReplStr ++ b1)) ++ bodyCloseTag ++ b2 := by
      rw [hout1R]
      simp [List.append_assoc]
    have hout2 : replaceAll (a ++ headReplStr ++ b) bodyCloseTag bodyReplStr
        = (a ++ (headReplStr ++ b1)) ++ bodyReplStr ++ b2 :=
      replaceAll_at hbodyne hshape2 hbod1
    have hfin : repairHtml html = (a ++ (headReplStr ++ b1)) ++ bodyReplStr ++ b2 := by
      rw [hrepair, hcond2]
      simp only [if_true]
      rw [hout2]
    have hfinR : repairHtml html = a ++ (headReplStr ++ (b1 ++ (bodyReplStr ++ b2))) := by
      rw [hfin]
      simp [List.append_assoc]
    refine ⟨?_, ?_, ?_, ?_, ?_⟩
    · rw [hfinR, countOcc_five a headReplStr b1 bodyReplStr b2 hlinkne
        (by decide) (by decide) (by decide) (by decide) (by decide) (by decide)]
      have hm1 : countOcc headReplStr linkTag = 1 := by decide
      have hm2 : countOcc bodyReplStr linkTag = 0 := by decide
      omega
    · rw [hfinR, countOcc_five a headReplStr b1 bodyReplStr b2 hscriptne
        (by decide) (by decide) (by decide) (by decide) (by decide) (by decide)]
      have hm1 : countOcc headReplStr scriptTag = 0 := by decide
      have hm2 : countOcc bodyReplStr scriptTag = 1 := by decide
      omega
    · have hsh : repairHtml html = a ++ headReplStr ++ (b1 ++ (bodyReplStr ++ b2)) := by
        rw [hfin]
        simp [List.append_assoc]
      rw [hsh]
      exact containsSub_mid _ headReplStr _
    · rw [hfin]
      exact containsSub_mid _ bodyReplStr _
    · rw [hfinR]
      have hhl := congrArg List.length habR
      have hbl := congrArg List.length hb12
      simp only [List.length_append] at hhl hbl ⊢
      have h53 : headReplStr.length = 53 := by decide
      have h42 : bodyReplStr.length = 42 := by decide
      have h7a : headCloseTag.length = 7 := by decide
      have h7b : bodyCloseTag.length = 7 := by decide
      omega

theorem enhance_obj (css : Str) (kvs : List (Str × PyVal)) :
    _enhance_css_for_app_type css (PyVal.obj kvs)
      = .ok ((if pyStrEq (pyGetD (PyVal.obj kvs) (("app_type").toList)
                  (.str ("landing_page").toList)) (("video_platform").toList)
              then vpEnhancement else genericEnhancement) ++ ("\n\n").toList ++ css) := by
  cases hb : pyStrEq (pyGetD (PyVal.obj kvs) (("app_type").toList)
      (.str ("landing_page").toList)) (("video_platform").toList) with
  | true =>
    simp only [pyGetD] at hb
    simp only [_enhance_css_for_app_type, pyGet, Bind.bind, Except.bind, pyGetD, hb,
      if_true, pure, Except.pure]
  | false =>
    simp only [pyGetD] at hb
    simp only [_enhance_css_for_app_type, pyGet, Bind.bind, Except.bind, pyGetD, hb,
      Bool.false_eq_true, if_false, pure, Except.pure]

/-- C5 amended: on a response whose extracted html is at least 500 characters
long, contains exactly one `</head>` and exactly one `</body>`, and no
stylesheet-link or script tag, the Frontend Generator's output html contains
exactly one `<link` occurrence and exactly one `<script` occurrence, the one
inserted stylesheet line sitting immediately before `</head>` and the one
inserted script line immediately before `</body>` (an input with `</head>`
twice receives two inserted link lines — see the counterexample). -/
theorem C5_structural_repair (prompt : Str) (analysis : PyVal) (r : Str)
    (hchk : buildPromptChecks analysis = .ok ())
    (hlen : 500 ≤ (extractedHtml r).length)
    (hhead : countOcc (extractedHtml r) headCloseTag = 1)
    (hbody : countOcc (extractedHtml r) bodyCloseTag = 1)
    (hlink : countOcc (extractedHtml r) linkTag = 0)
    (hscript : countOcc (extractedHtml r) scriptTag = 0) :
    ∃ fr, _generate_contextual_frontend prompt analysis (.ok r) = .ok fr
      ∧ fr.html = repairHtml (extractedHtml r)
      ∧ countOcc fr.html linkTag = 1
      ∧ countOcc fr.html scriptTag = 1
      ∧ containsSub fr.html headReplStr = true
      ∧ containsSub fr.html bodyReplStr = true := by
  have hrep := repairHtml_unique_insert (extractedHtml r) hlen hhead hbody hlink hscript
  obtain ⟨kvs, hobj⟩ := buildPromptChecks_obj hchk
  subst hobj
  rw [gcf_processResponse hchk]
  unfold processResponse
  rw [if_neg (by have := hrep.2.2.2.2; omega)]
  by_cases hc : (extractedCss r).length < 300
  · rw [if_pos hc]
    rw [show (do
        let css2 ← _enhance_css_for_app_type (extractedCss r) (PyVal.obj kvs)
        pure { html := repairHtml (extractedHtml r), css := css2, js := extractedJs r }
          : Except Unit FrontendResult)
      = Except.bind (_enhance_css_for_app_type (extractedCss r) (PyVal.obj kvs))
          (fun css2 => Except.ok { html := repairHtml (extractedHtml r), css := css2
                                 , js := extractedJs r }) from rfl]
    rw [enhance_obj]
    exact ⟨_, rfl, rfl, hrep.1, hrep.2.1, hrep.2.2.1, hrep.2.2.2.1⟩
  · rw [if_neg hc]
    exact ⟨_, rfl, rfl, hrep.1, hrep.2.1, hrep.2.2.1, hrep.2.2.2.1⟩

set_option maxRecDepth 8000 in
/-- Witness for C5 at a 524-character document with one `</head>` and one
`</body>` and no link or script tag. -/
theorem C5_structural_repair_witness :
    ∃ fr, _generate_contextual_frontend ("p").toList defaultIntent (.ok respC5w) = .ok fr
      ∧ countOcc fr.html linkTag = 1
      ∧ countOcc fr.html scriptTag = 1
      ∧ containsSub fr.html headReplStr = true
      ∧ containsSub fr.html bodyReplStr = true := by
  obtain ⟨fr, heq, hh, h1, h2, h3, h4⟩ := C5_structural_repair ("p").toList defaultIntent
    respC5w rfl (by decide) (by decide) (by decide) (by decide) (by decide)
  exact ⟨fr, heq, h1, h2, h3, h4⟩

set_option maxRecDepth 8000 in
/-- C5 counterexample: an extracted html of 521 characters satisfying every
condition of the claim except that `</head>` occurs twice: the output html
contains TWO inserted stylesheet-link lines, refuting "exactly one". -/
theorem C5_counterexample :
    500 ≤ (extractedHtml respC5c).length
  ∧ countOcc (extractedHtml respC5c) linkTag = 0
  ∧ countOcc (extractedHtml respC5c) scriptTag = 0
  ∧ containsSub (extractedHtml respC5c) headCloseTag = true
  ∧ containsSub (extractedHtml respC5c) bodyCloseTag = true
  ∧ countOcc (frontendHtml (_generate_contextual_frontend ("p").toList defaultIntent
      (.ok respC5c))) linkTag = 2 := by
  refine ⟨by decide, by decide, by decide, by decide, by decide, by decide⟩

end Webgen
